import Mathlib

/-!
# alfred-notion-go: the record-registration client

A shallow embedding of `main.go` (package `main`): the start-up function `init`, the
constructor `NewNotionClient`, the method `NotionClient.RegisterRecord` and `main`,
together with the parts of the Go standard library whose behaviour those functions
depend on (`unicode/utf8`, `encoding/json`, `net/http`, `fmt`, `io`, `os`, `log`) and of
`github.com/joho/godotenv`.

Go strings and byte slices are finite sequences of bytes; a Go `error` is represented by
the text its `Error()` method returns, and the nil error by `none`.
-/

namespace AlfredNotion

/-! ## Bytes and strings -/

/-- A byte (`uint8`). -/
abbrev Byte := Fin 256

/-- A Go `string` (or `[]byte`): an arbitrary finite byte sequence, not necessarily
valid UTF-8. -/
abbrev GoString := List Byte

/-- The bytes of a Go string literal: the UTF-8 encoding of its characters. -/
def goStr (s : String) : GoString :=
  (s.data.flatMap String.utf8EncodeChar).map (fun u => u.val)

/-- A Go `error` value that is not nil, represented by its `Error()` text. -/
abbrev GoError := GoString

/-! ## unicode/utf8 -/

/-- The constant `utf8.RuneError` (U+FFFD). -/
def RuneError : Nat := 0xFFFD

/-- The constant `utf8.UTFMax`. -/
def UTFMax : Nat := 4

/-- The table `first` of `unicode/utf8`: information about the first byte of a UTF-8
sequence (`as = 0xF0`, `xx = 0xF1`, `s1 = 0x02`, `s2 = 0x13`, `s3 = 0x03`, `s4 = 0x23`,
`s5 = 0x34`, `s6 = 0x04`, `s7 = 0x44`). -/
def first (b : Nat) : Nat :=
  if b < 0x80 then 0xF0
  else if b < 0xC2 then 0xF1
  else if b < 0xE0 then 0x02
  else if b = 0xE0 then 0x13
  else if b < 0xED then 0x03
  else if b = 0xED then 0x23
  else if b < 0xF0 then 0x03
  else if b = 0xF0 then 0x34
  else if b < 0xF4 then 0x04
  else if b = 0xF4 then 0x44
  else 0xF1

/-- The table `acceptRanges` of `unicode/utf8`: the accepted range `(lo, hi)` of the
second byte of a sequence. -/
def acceptRanges (i : Nat) : Nat × Nat :=
  match i with
  | 0 => (0x80, 0xBF)
  | 1 => (0xA0, 0xBF)
  | 2 => (0x80, 0x9F)
  | 3 => (0x90, 0xBF)
  | 4 => (0x80, 0x8F)
  | _ => (0, 0)

/-- The function `utf8.DecodeRuneInString`: the first rune of `s` and its width in
bytes; `(RuneError, 1)` for an invalid encoding, `(RuneError, 0)` for the empty string. -/
def DecodeRuneInString (s : GoString) : Nat × Nat :=
  match s with
  | [] => (RuneError, 0)
  | s0 :: t0 =>
    let x := first s0.val
    if x ≥ 0xF0 then
      -- mask := rune(x) << 31 >> 31 is all ones exactly when the low bit of x is set
      (if x % 2 = 0 then s0.val else RuneError, 1)
    else
      let sz := x &&& 7
      let accept := acceptRanges (x >>> 4)
      if s.length < sz then (RuneError, 1)
      else
        match t0 with
        | [] => (RuneError, 1)
        | s1 :: t1 =>
          if s1.val < accept.1 ∨ accept.2 < s1.val then (RuneError, 1)
          else if sz ≤ 2 then
            (((s0.val &&& 0x1F) <<< 6) ||| (s1.val &&& 0x3F), 2)
          else
            match t1 with
            | [] => (RuneError, 1)
            | s2 :: t2 =>
              if s2.val < 0x80 ∨ 0xBF < s2.val then (RuneError, 1)
              else if sz ≤ 3 then
                (((s0.val &&& 0x0F) <<< 12) ||| ((s1.val &&& 0x3F) <<< 6)
                  ||| (s2.val &&& 0x3F), 3)
              else
                match t2 with
                | [] => (RuneError, 1)
                | s3 :: _ =>
                  if s3.val < 0x80 ∨ 0xBF < s3.val then (RuneError, 1)
                  else
                    (((s0.val &&& 0x07) <<< 18) ||| ((s1.val &&& 0x3F) <<< 12)
                      ||| ((s2.val &&& 0x3F) <<< 6) ||| (s3.val &&& 0x3F), 4)

/-- The function `utf8.ValidString`, by fuel: no position of `s` decodes to an invalid
encoding. -/
def validLoop : Nat → GoString → Bool
  | 0, s => s.isEmpty
  | _ + 1, [] => true
  | fuel + 1, b :: rest =>
    let r := DecodeRuneInString (b :: rest)
    if r.1 = RuneError ∧ r.2 = 1 then false
    else validLoop fuel ((b :: rest).drop r.2)

/-- The function `utf8.ValidString`. -/
def ValidString (s : GoString) : Bool := validLoop s.length s

/-! ## encoding/json: encoding -/

/-- The digits `hex` of `encoding/json`. -/
def hex (n : Nat) : Byte :=
  if n < 10 then Fin.ofNat (0x30 + n) else Fin.ofNat (0x61 + (n - 10))

/-- The table `htmlSafeSet` of `encoding/json`: the ASCII bytes that need no escape in a
JSON string embedded in HTML, that is all of 0x20..0x7F but the double quote, `&`, `<`,
`>` and the backslash. -/
def htmlSafeSet (b : Nat) : Bool :=
  decide (0x20 ≤ b ∧ b < 0x80 ∧ b ≠ 0x22 ∧ b ≠ 0x26 ∧ b ≠ 0x3C ∧ b ≠ 0x3E ∧ b ≠ 0x5C)

/-- The escape `appendString` writes for an ASCII byte outside `htmlSafeSet`: a
two-character escape for the quote, the backslash, backspace, form feed, line feed,
carriage return and tab, `\u00XX` for the other control characters and for `<`, `>`
and `&`. (Older releases of the package write `\u0008` and `\u000c` for backspace and
form feed; both forms decode to the same byte.) -/
def escapeASCII (b : Byte) : List Byte :=
  if b.val = 0x5C ∨ b.val = 0x22 then [0x5C, b]
  else if b.val = 0x08 then [0x5C, 0x62]
  else if b.val = 0x0C then [0x5C, 0x66]
  else if b.val = 0x0A then [0x5C, 0x6E]
  else if b.val = 0x0D then [0x5C, 0x72]
  else if b.val = 0x09 then [0x5C, 0x74]
  else [0x5C, 0x75, 0x30, 0x30, hex (b.val >>> 4), hex (b.val &&& 0xF)]

/-- The loop of `appendString` with `escapeHTML` set, over the part of `src` not yet
consumed: the bytes appended to `dst` between the two quotes. One unit of fuel is used
for each iteration; every iteration consumes at least one byte. -/
def appendStringLoop : Nat → GoString → List Byte
  | 0, _ => []
  | _ + 1, [] => []
  | fuel + 1, b :: rest =>
    if b.val < 0x80 then
      if htmlSafeSet b.val then b :: appendStringLoop fuel rest
      else escapeASCII b ++ appendStringLoop fuel rest
    else
      let r := DecodeRuneInString ((b :: rest).take UTFMax)
      if r.1 = RuneError ∧ r.2 = 1 then
        goStr "\\ufffd" ++ appendStringLoop fuel rest
      else if r.1 = 0x2028 ∨ r.1 = 0x2029 then
        [0x5C, 0x75, 0x32, 0x30, 0x32, hex (r.1 &&& 0xF)]
          ++ appendStringLoop fuel ((b :: rest).drop r.2)
      else
        (b :: rest).take r.2 ++ appendStringLoop fuel ((b :: rest).drop r.2)

/-- The function `appendString` of `encoding/json` (with `escapeHTML = true`, as
`json.Marshal` calls it) on an empty `dst`: `src` as a JSON string. -/
def appendString (src : GoString) : List Byte :=
  0x22 :: (appendStringLoop src.length src ++ [0x22])

/-- The Go values `RegisterRecord` builds its payload from: a `string`, a map with string
keys (`map[string]string` or `map[string]interface{}`) as its list of entries, and a
slice. -/
inductive GoValue where
  | string (s : GoString)
  | map (m : List (GoString × GoValue))
  | slice (xs : List GoValue)

/-- The order `strings.Compare a b < 0` that the map encoder sorts keys by: byte-wise
lexicographic. -/
def stringLess : GoString → GoString → Bool
  | [], [] => false
  | [], _ :: _ => true
  | _ :: _, [] => false
  | a :: as, b :: bs => if a.val < b.val then true else if b.val < a.val then false
      else stringLess as bs

/-- Insert an encoded map entry into a list sorted by key. -/
def insertByKey (e : GoString × List Byte) : List (GoString × List Byte) →
    List (GoString × List Byte)
  | [] => [e]
  | x :: xs => if stringLess x.1 e.1 then x :: insertByKey e xs else e :: x :: xs

/-- The `slices.SortFunc` call of the map encoder: the entries sorted by key. -/
def sortByKey : List (GoString × List Byte) → List (GoString × List Byte)
  | [] => []
  | e :: es => insertByKey e (sortByKey es)

/-- Pieces separated by commas. -/
def joinComma : List (List Byte) → List Byte
  | [] => []
  | [x] => x
  | x :: y :: r => x ++ 0x2C :: joinComma (y :: r)

mutual
/-- The encoders of `encoding/json` for a string, a map with string keys (keys in sorted
order) and a slice. -/
def marshalValue : GoValue → List Byte
  | .string s => appendString s
  | .map m => 0x7B :: (joinComma ((sortByKey (marshalEntries m)).map (fun e => e.2)) ++ [0x7D])
  | .slice xs => 0x5B :: (joinComma (marshalElems xs) ++ [0x5D])
/-- Each entry of a map with its encoding `"key":value`. -/
def marshalEntries : List (GoString × GoValue) → List (GoString × List Byte)
  | [] => []
  | (k, v) :: r => (k, appendString k ++ 0x3A :: marshalValue v) :: marshalEntries r
/-- The encodings of the elements of a slice. -/
def marshalElems : List GoValue → List (List Byte)
  | [] => []
  | v :: r => marshalValue v :: marshalElems r
end

/-- The function `json.Marshal` on a `GoValue`. It returns an error only for values of
unsupported types, which `GoValue` does not have. -/
def Marshal (v : GoValue) : Except GoError (List Byte) :=
  .ok (marshalValue v)

/-! ## JSON texts (RFC 8259): decoding

The decoder is strict: it accepts only the grammar of RFC 8259, with every string a
sequence of well-formed UTF-8 and of the escapes the RFC lists, and it keeps the
members of an object in the order of the text, duplicates included. -/

/-- A JSON value; a number keeps its text, a string is its decoded bytes (UTF-8). -/
inductive JSON where
  | null
  | bool (b : Bool)
  | number (text : GoString)
  | string (s : GoString)
  | array (xs : List JSON)
  | object (ms : List (GoString × JSON))

/-- Insignificant whitespace: space, tab, line feed, carriage return. -/
def skipWS : List Byte → List Byte
  | [] => []
  | b :: rest =>
    if b.val = 0x20 ∨ b.val = 0x09 ∨ b.val = 0x0A ∨ b.val = 0x0D then skipWS rest
    else b :: rest

/-- The value of a hexadecimal digit. -/
def hexVal (b : Byte) : Option Nat :=
  if 0x30 ≤ b.val ∧ b.val ≤ 0x39 then some (b.val - 0x30)
  else if 0x61 ≤ b.val ∧ b.val ≤ 0x66 then some (b.val - 0x61 + 10)
  else if 0x41 ≤ b.val ∧ b.val ≤ 0x46 then some (b.val - 0x41 + 10)
  else none

/-- Four hexadecimal digits as a number, and the input after them. -/
def parseHex4 : List Byte → Option (Nat × List Byte)
  | a :: b :: c :: d :: rest =>
    match hexVal a, hexVal b, hexVal c, hexVal d with
    | some x, some y, some z, some w => some (((x * 16 + y) * 16 + z) * 16 + w, rest)
    | _, _, _, _ => none
  | _ => none

/-- The UTF-8 encoding of a code point below 0x110000. -/
def encodeRune (r : Nat) : List Byte :=
  if r < 0x80 then [Fin.ofNat r]
  else if r < 0x800 then [Fin.ofNat (0xC0 + r / 64), Fin.ofNat (0x80 + r % 64)]
  else if r < 0x10000 then
    [Fin.ofNat (0xE0 + r / 4096), Fin.ofNat (0x80 + r / 64 % 64), Fin.ofNat (0x80 + r % 64)]
  else
    [Fin.ofNat (0xF0 + r / 262144), Fin.ofNat (0x80 + r / 4096 % 64),
      Fin.ofNat (0x80 + r / 64 % 64), Fin.ofNat (0x80 + r % 64)]

/-- The character a two-character escape stands for. -/
def simpleEscape (e : Byte) : Option Byte :=
  if e.val = 0x22 then some 0x22
  else if e.val = 0x5C then some 0x5C
  else if e.val = 0x2F then some 0x2F
  else if e.val = 0x62 then some 0x08
  else if e.val = 0x66 then some 0x0C
  else if e.val = 0x6E then some 0x0A
  else if e.val = 0x72 then some 0x0D
  else if e.val = 0x74 then some 0x09
  else none

/-- The code point of a `\u` escape whose `\u` has been consumed, and the input after
it: a high surrogate takes the low surrogate that must follow it, a lone low surrogate
is refused. -/
def parseUnicodeEscape (inp : List Byte) : Option (Nat × List Byte) :=
  match parseHex4 inp with
  | none => none
  | some (u, rest) =>
    if 0xD800 ≤ u ∧ u < 0xDC00 then
      match rest with
      | bs :: lu :: rest1 =>
        if bs.val = 0x5C ∧ lu.val = 0x75 then
          match parseHex4 rest1 with
          | none => none
          | some (l, rest2) =>
            if 0xDC00 ≤ l ∧ l < 0xE000 then
              some (0x10000 + (u - 0xD800) * 0x400 + (l - 0xDC00), rest2)
            else none
        else none
      | _ => none
    else if 0xDC00 ≤ u ∧ u < 0xE000 then none
    else some (u, rest)

/-- The characters of a string up to its closing quote, decoded, and the input after the
quote. One unit of fuel is used for each character or escape. -/
def parseStringBody : Nat → List Byte → Option (GoString × List Byte)
  | 0, _ => none
  | _ + 1, [] => none
  | fuel + 1, b :: rest =>
    if b.val = 0x22 then some ([], rest)
    else if b.val = 0x5C then
      match rest with
      | [] => none
      | e :: rest1 =>
        if e.val = 0x75 then
          match parseUnicodeEscape rest1 with
          | none => none
          | some (r, rest2) =>
            (parseStringBody fuel rest2).map (fun p => (encodeRune r ++ p.1, p.2))
        else
          match simpleEscape e with
          | none => none
          | some c => (parseStringBody fuel rest1).map (fun p => (c :: p.1, p.2))
    else if b.val < 0x20 then none
    else if b.val < 0x80 then (parseStringBody fuel rest).map (fun p => (b :: p.1, p.2))
    else
      let r := DecodeRuneInString (b :: rest)
      if r.1 = RuneError ∧ r.2 = 1 then none
      else
        (parseStringBody fuel ((b :: rest).drop r.2)).map
          (fun p => ((b :: rest).take r.2 ++ p.1, p.2))

/-- A string whose opening quote has been consumed. -/
def parseString (inp : List Byte) : Option (GoString × List Byte) :=
  parseStringBody inp.length inp

/-- Whether a byte is a decimal digit. -/
def isDigit (b : Byte) : Bool := decide (0x30 ≤ b.val ∧ b.val ≤ 0x39)

/-- At least one digit: the digits and the input after them. -/
def parseDigits1 (inp : List Byte) : Option (List Byte × List Byte) :=
  let p := inp.span isDigit
  if p.1.isEmpty then none else some p

/-- The integer part of a number: a single zero, or digits not starting with zero. -/
def parseInt (inp : List Byte) : Option (List Byte × List Byte) :=
  match inp with
  | [] => none
  | d :: rest =>
    if d.val = 0x30 then some ([d], rest)
    else parseDigits1 (d :: rest)

/-- The optional fraction of a number. -/
def parseFrac (inp : List Byte) : Option (List Byte × List Byte) :=
  match inp with
  | [] => some ([], [])
  | d :: rest =>
    if d.val = 0x2E then (parseDigits1 rest).map (fun p => (d :: p.1, p.2))
    else some ([], d :: rest)

/-- The optional exponent of a number. -/
def parseExp (inp : List Byte) : Option (List Byte × List Byte) :=
  match inp with
  | [] => some ([], [])
  | e :: rest =>
    if e.val = 0x65 ∨ e.val = 0x45 then
      match rest with
      | [] => none
      | s :: rest1 =>
        if s.val = 0x2B ∨ s.val = 0x2D then
          (parseDigits1 rest1).map (fun p => (e :: s :: p.1, p.2))
        else (parseDigits1 (s :: rest1)).map (fun p => (e :: p.1, p.2))
    else some ([], e :: rest)

/-- A number: its text and the input after it. -/
def parseNumber (inp : List Byte) : Option (GoString × List Byte) :=
  let signed : List Byte × List Byte :=
    match inp with
    | m :: rest => if m.val = 0x2D then ([m], rest) else ([], m :: rest)
    | [] => ([], [])
  match parseInt signed.2 with
  | none => none
  | some (i, rest1) =>
    match parseFrac rest1 with
    | none => none
    | some (f, rest2) =>
      match parseExp rest2 with
      | none => none
      | some (e, rest3) => some (signed.1 ++ i ++ f ++ e, rest3)

/-- A value that is neither a string, an object nor an array: a literal name or a
number. -/
def parseScalar (inp : List Byte) : Option (JSON × List Byte) :=
  if (goStr "true").isPrefixOf inp then some (.bool true, inp.drop 4)
  else if (goStr "false").isPrefixOf inp then some (.bool false, inp.drop 5)
  else if (goStr "null").isPrefixOf inp then some (.null, inp.drop 4)
  else (parseNumber inp).map (fun p => (.number p.1, p.2))

mutual
/-- A value, and the input after it. The fuel bounds the number of nested calls; each
call consumes input before it calls again, so the length of the input is enough. -/
def parseValue : Nat → List Byte → Option (JSON × List Byte)
  | 0, _ => none
  | fuel + 1, inp =>
    match skipWS inp with
    | [] => none
    | b :: rest =>
      if b.val = 0x22 then (parseString rest).map (fun p => (.string p.1, p.2))
      else if b.val = 0x7B then
        match skipWS rest with
        | [] => none
        | c :: rest1 =>
          if c.val = 0x7D then some (.object [], rest1)
          else (parseMembers fuel (c :: rest1)).map (fun p => (.object p.1, p.2))
      else if b.val = 0x5B then
        match skipWS rest with
        | [] => none
        | c :: rest1 =>
          if c.val = 0x5D then some (.array [], rest1)
          else (parseElems fuel (c :: rest1)).map (fun p => (.array p.1, p.2))
      else parseScalar (b :: rest)
/-- The members of an object up to its closing brace: `string : value`, separated by
commas. -/
def parseMembers : Nat → List Byte → Option (List (GoString × JSON) × List Byte)
  | 0, _ => none
  | fuel + 1, inp =>
    match skipWS inp with
    | [] => none
    | q :: rest =>
      if q.val = 0x22 then
        match parseString rest with
        | none => none
        | some (k, rest1) =>
          match skipWS rest1 with
          | [] => none
          | colon :: rest2 =>
            if colon.val = 0x3A then
              match parseValue fuel rest2 with
              | none => none
              | some (v, rest3) =>
                match skipWS rest3 with
                | [] => none
                | d :: rest4 =>
                  if d.val = 0x7D then some ([(k, v)], rest4)
                  else if d.val = 0x2C then
                    (parseMembers fuel rest4).map (fun p => ((k, v) :: p.1, p.2))
                  else none
            else none
      else none
/-- The elements of an array up to its closing bracket, separated by commas. -/
def parseElems : Nat → List Byte → Option (List JSON × List Byte)
  | 0, _ => none
  | fuel + 1, inp =>
    match parseValue fuel inp with
    | none => none
    | some (v, rest) =>
      match skipWS rest with
      | [] => none
      | d :: rest1 =>
        if d.val = 0x5D then some ([v], rest1)
        else if d.val = 0x2C then (parseElems fuel rest1).map (fun p => (v :: p.1, p.2))
        else none
end

/-- The value a JSON text stands for: one value, with nothing but whitespace around it;
`none` for a text that is not JSON. -/
def decodeJSON (text : List Byte) : Option JSON :=
  match parseValue (text.length + 1) text with
  | none => none
  | some (v, rest) => if (skipWS rest).isEmpty then some v else none

/-- The member of an object with the given key, when it has exactly one member of
that key. -/
def JSON.member (key : GoString) : JSON → Option JSON
  | .object ms =>
    match ms.filter (fun m => m.1 = key) with
    | [m] => some m.2
    | _ => none
  | _ => none

/-- The element of an array at an index. -/
def JSON.element (i : Nat) : JSON → Option JSON
  | .array xs => xs.get? i
  | _ => none

/-- The bytes of a JSON string. -/
def JSON.asString : JSON → Option GoString
  | .string s => some s
  | _ => none

/-! ## fmt, io -/

/-- The decimal digits of a natural number, as `strconv` writes them. -/
def fmtNat (n : Nat) : GoString :=
  (Nat.toDigits 10 n).map (fun c => Fin.ofNat c.toNat)

/-- The verb `%d` of `fmt` on an `int`: the decimal rendering, with a minus sign for a
negative number. -/
def fmtInt (i : Int) : GoString :=
  match i with
  | .ofNat n => fmtNat n
  | .negSucc n => 0x2D :: fmtNat (n + 1)

/-- An `io.Reader` as `io.ReadAll` sees it: the bytes it delivers before it reports the
end of the stream or an error, and that error. -/
structure Reader where
  data : GoString
  err : Option GoError
  deriving DecidableEq

/-- The function `io.ReadAll`: the bytes read, and the error that stopped the read. -/
def ReadAll (r : Reader) : GoString × Option GoError := (r.data, r.err)

/-! ## net/http -/

/-- The type `http.Header`: the values of each key. -/
abbrev Header := List (GoString × List GoString)

/-- The type `http.Request`, as far as `RegisterRecord` fills it. -/
structure Request where
  Method : GoString
  URL : GoString
  Header : Header
  Body : List Byte
  deriving DecidableEq

/-- The type `http.Response`, as far as `RegisterRecord` reads it. -/
structure Response where
  StatusCode : Int
  Body : Reader
  Header : Header := []
  deriving DecidableEq

/-- The constant `http.StatusOK`. -/
def StatusOK : Int := 200

/-- The token characters of RFC 7230 (`httpguts.IsTokenRune`, `validHeaderFieldByte`):
letters, digits and the marks of the string below. -/
def isToken (b : Byte) : Bool :=
  decide ((0x30 ≤ b.val ∧ b.val ≤ 0x39) ∨ (0x41 ≤ b.val ∧ b.val ≤ 0x5A)
    ∨ (0x61 ≤ b.val ∧ b.val ≤ 0x7A)) || (goStr "!#$%&*+-.^_|~").contains b
    || b.val = 0x27 || b.val = 0x60

/-- The function `validMethod` of `net/http`. -/
def validMethod (method : GoString) : Bool :=
  !method.isEmpty && method.all isToken

/-- The function `stringContainsCTLByte` of `net/url`. -/
def stringContainsCTLByte (s : GoString) : Bool :=
  s.any (fun b => decide (b.val < 0x20 ∨ b.val = 0x7F))

/-- The function `getScheme` of `net/url`: the scheme before the first colon of
`rawURL` and the rest; no scheme when a character that no scheme has comes first; an
error for a colon at the start. The second argument is the prefix read so far. -/
def getScheme : GoString → GoString → Except GoError (GoString × GoString)
  | seen, [] => .ok ([], seen)
  | seen, c :: rest =>
    if (0x61 ≤ c.val ∧ c.val ≤ 0x7A) ∨ (0x41 ≤ c.val ∧ c.val ≤ 0x5A) then
      getScheme (seen ++ [c]) rest
    else if (0x30 ≤ c.val ∧ c.val ≤ 0x39) ∨ c.val = 0x2B ∨ c.val = 0x2D ∨ c.val = 0x2E then
      if seen.isEmpty then .ok ([], seen ++ c :: rest) else getScheme (seen ++ [c]) rest
    else if c.val = 0x3A then
      if seen.isEmpty then .error (goStr "missing protocol scheme") else .ok (seen, rest)
    else .ok ([], seen ++ c :: rest)

/-- Whether every `%` of `s` is followed by two hexadecimal digits, as `unescape` of
`net/url` requires. -/
def validEscapes : GoString → Bool
  | [] => true
  | c :: rest =>
    if c.val = 0x25 then
      match rest with
      | a :: b :: rest1 => (hexVal a).isSome && (hexVal b).isSome && validEscapes rest1
      | _ => false
    else validEscapes rest

/-- The characters `net/url` accepts unescaped in a host name (`shouldEscape` in mode
`encodeHost`): letters, digits and the marks of the string below; bytes from 0x80 on
are accepted too. -/
def validHostByte (b : Byte) : Bool :=
  decide ((0x30 ≤ b.val ∧ b.val ≤ 0x39) ∨ (0x41 ≤ b.val ∧ b.val ≤ 0x5A)
    ∨ (0x61 ≤ b.val ∧ b.val ≤ 0x7A) ∨ 0x80 ≤ b.val)
    || (goStr "-_.~!$&()*+,;=:[]<>\"%").contains b || b.val = 0x27

/-- The function `validOptionalPort` of `net/url`: empty, or a colon and digits. -/
def validOptionalPort (port : GoString) : Bool :=
  match port with
  | [] => true
  | c :: digits => c.val = 0x3A && digits.all isDigit

/-- The part of a host from its last colon on (empty when it has none). -/
def colonPort (host : GoString) : GoString :=
  match host.reverse.span (fun b => decide (b.val ≠ 0x3A)) with
  | (_, []) => []
  | (after, colon :: _) => colon :: after.reverse

/-- The checks of `url.Parse` on a URL that has no user information, no IPv6 literal
and no fragment: no control byte, a well-formed scheme, after `//` a host of accepted
characters with a numeric port if any, and well-formed percent escapes in host and
path. The result is the error of the first check that fails. -/
def urlParse (rawURL : GoString) : Except GoError GoString :=
  if stringContainsCTLByte rawURL then
    .error (goStr "net/url: invalid control character in URL")
  else
    match getScheme [] rawURL with
    | .error e => .error e
    | .ok (scheme, rest) =>
      let path := rest.takeWhile (fun b => decide (b.val ≠ 0x3F))
      match path with
      | s1 :: s2 :: afterSlashes =>
        if s1.val = 0x2F ∧ s2.val = 0x2F ∧ ¬ scheme.isEmpty then
          let authority := afterSlashes.takeWhile (fun b => decide (b.val ≠ 0x2F))
          let segments := afterSlashes.dropWhile (fun b => decide (b.val ≠ 0x2F))
          if !validOptionalPort (colonPort authority) then
            .error (goStr "invalid port after host")
          else if !validEscapes authority then .error (goStr "invalid URL escape")
          else if !authority.all validHostByte then
            .error (goStr "invalid character in host name")
          else if !validEscapes segments then .error (goStr "invalid URL escape")
          else .ok rawURL
        else if !validEscapes path then .error (goStr "invalid URL escape")
        else .ok rawURL
      | _ => if !validEscapes path then .error (goStr "invalid URL escape") else .ok rawURL

/-- The function `http.NewRequest` with a `*bytes.Buffer` body: it refuses an invalid
method and a URL that does not parse, and otherwise returns a request with an empty
header. -/
def NewRequest (method url : GoString) (body : List Byte) : Except GoError Request :=
  let method := if method.isEmpty then goStr "GET" else method
  if !validMethod method then .error (goStr "net/http: invalid method " ++ method)
  else
    match urlParse url with
    | .error e => .error (goStr "parse " ++ url ++ goStr ": " ++ e)
    | .ok u => .ok { Method := method, URL := u, Header := [], Body := body }

/-- The loop of `textproto.CanonicalMIMEHeaderKey`: a letter is made upper case at the
start and after a hyphen, lower case elsewhere. -/
def canonicalLoop : Bool → GoString → GoString
  | _, [] => []
  | upper, c :: rest =>
    let c1 : Byte :=
      if upper ∧ 0x61 ≤ c.val ∧ c.val ≤ 0x7A then Fin.ofNat (c.val - 0x20)
      else if ¬ upper ∧ 0x41 ≤ c.val ∧ c.val ≤ 0x5A then Fin.ofNat (c.val + 0x20)
      else c
    c1 :: canonicalLoop (c1.val = 0x2D) rest

/-- The function `textproto.CanonicalMIMEHeaderKey`: a key of token characters in its
canonical form, any other key unchanged. -/
def CanonicalMIMEHeaderKey (s : GoString) : GoString :=
  if s.all isToken then canonicalLoop true s else s

/-- The method `Header.Set`: the key, in canonical form, gets the single value. -/
def Header.Set (h : Header) (key value : GoString) : Header :=
  let k := CanonicalMIMEHeaderKey key
  h.filter (fun e => e.1 ≠ k) ++ [(k, [value])]

/-- The method `Header.Get`: the first value of the key, or the empty string. -/
def Header.Get (h : Header) (key : GoString) : GoString :=
  match h.find? (fun e => e.1 = CanonicalMIMEHeaderKey key) with
  | some (_, v :: _) => v
  | _ => []

/-- What one call of `(*http.Client).Do` does: the requests it writes to the network, in
order, and the value it returns, a response or an error. -/
structure Exchange where
  wire : List Request
  result : Except GoError Response

/-- The type `http.Client` with the transport it sends through: `exchange req` is what
the call `Do(req)` does. -/
structure HttpClient where
  exchange : Request → Exchange

/-- The value the method `(*http.Client).Do` returns. -/
def HttpClient.Do (c : HttpClient) (req : Request) : Except GoError Response :=
  (c.exchange req).result

/-- What lies behind the client `&http.Client{}`, taken as given: the network, and the
step of `net/http` that builds the request of a redirect hop. -/
structure Transport where
  /-- What the network answers to a request written to it: a response, or the error of
  a failed exchange. An exchange that the transport repeats on a fresh connection, the
  first having failed before the server took the request, counts as one. -/
  answer : Request → Except GoError Response
  /-- The request of the next hop, as `(*http.Client).do` builds it from the first
  request, the request just answered and its redirect response (the `Location` resolved
  against the URL of the request, the headers of the first request copied, the `Referer`
  set), or the error of a `Location` that does not parse. -/
  hop : Request → Request → Response → Except GoError Request

/-- The function `httpguts.ValidHeaderFieldValue`: no control character but the tab. -/
def validHeaderFieldValue (v : GoString) : Bool :=
  v.all (fun b => decide (¬ (b.val < 0x20 ∨ b.val = 0x7F) ∨ b.val = 0x09))

/-- The function `httpguts.ValidHeaderFieldName`: token characters, at least one. -/
def validHeaderFieldName (k : GoString) : Bool :=
  !k.isEmpty && k.all isToken

/-- The function `validateHeaders` of `net/http`: every name and every value is valid. -/
def validateHeaders (h : Header) : Bool :=
  h.all (fun e => validHeaderFieldName e.1 && e.2.all validHeaderFieldValue)

/-- An ASCII letter in lower case. -/
def lowerASCII (b : Byte) : Byte :=
  if 0x41 ≤ b.val ∧ b.val ≤ 0x5A then Fin.ofNat (b.val + 0x20) else b

/-- The checks of `(*Transport).roundTrip` before it dials: the scheme is `http` or
`https`, the headers are valid, the method is valid and the URL has a host. The result
is the error of the first check that fails, its text shortened, `none` when the request
goes out. -/
def preDial (req : Request) : Option GoError :=
  match getScheme [] req.URL with
  | .error e => some e
  | .ok (scheme, rest) =>
    let scheme := scheme.map lowerASCII
    let isHTTP : Bool := scheme = goStr "http" || scheme = goStr "https"
    if isHTTP && !validateHeaders req.Header then some (goStr "net/http: invalid header")
    else if !isHTTP then some (goStr "unsupported protocol scheme")
    else if !validMethod req.Method then some (goStr "net/http: invalid method")
    else
      match rest with
      | s1 :: s2 :: afterSlashes =>
        if s1.val = 0x2F ∧ s2.val = 0x2F
            ∧ ¬ (afterSlashes.takeWhile
                  (fun b => decide (b.val ≠ 0x2F ∧ b.val ≠ 0x3F))).isEmpty then none
        else some (goStr "http: no Host in request URL")
      | _ => some (goStr "http: no Host in request URL")

/-- The status codes on which `redirectBehavior` of `net/http` redirects a request
whose body can be sent again: 301, 302, 303, 307 and 308. -/
def isRedirect (status : Int) : Bool :=
  status = 301 || status = 302 || status = 303 || status = 307 || status = 308

/-- The loop of `(*http.Client).do` with the default redirect policy, from the request
`req` on, `wire` being the requests written so far: the request goes out if it passes
the checks of the transport; a redirect response with a `Location` is followed by the
request of the next hop, unless ten requests have been made. One unit of fuel is used
for each request; ten are enough. -/
def clientLoop (t : Transport) (first : Request) : Nat → Request → List Request → Exchange
  | 0, _, wire => { wire := wire, result := .error (goStr "stopped after 10 redirects") }
  | fuel + 1, req, wire =>
    match preDial req with
    | some e => { wire := wire, result := .error e }
    | none =>
      match t.answer req with
      | .error e => { wire := wire ++ [req], result := .error e }
      | .ok resp =>
        if isRedirect resp.StatusCode then
          if resp.Header.Get (goStr "Location") = [] then
            { wire := wire ++ [req], result := .ok resp }
          else
            match t.hop first req resp with
            | .error e => { wire := wire ++ [req], result := .error e }
            | .ok next =>
              if (wire ++ [req]).length ≥ 10 then
                { wire := wire ++ [req],
                  result := .error (goStr "stopped after 10 redirects") }
              else clientLoop t first fuel next (wire ++ [req])
        else { wire := wire ++ [req], result := .ok resp }

/-- The method `Do` of the client `&http.Client{}` (no `CheckRedirect`, no cookie jar,
no timeout, the default transport) on a request whose body can be sent again. -/
def clientDo (t : Transport) (req : Request) : Exchange :=
  clientLoop t req 10 req []

/-! ## main.go -/

/-- The constant `notionApiUrl`. -/
def notionApiUrl : GoString := goStr "https://api.notion.com/v1/pages"

/-- The constant `notionApiVersion`. -/
def notionApiVersion : GoString := goStr "2021-05-13"

/-- The type `NotionClient`. -/
structure NotionClient where
  httpClient : HttpClient
  token : GoString

/-- The function `NewNotionClient`. The literal `&http.Client{}` is the default client
over the default transport; what lies behind it, `network`, is given from outside. -/
def NewNotionClient (network : Transport) (token : GoString) : NotionClient :=
  { httpClient := { exchange := clientDo network }, token := token }

/-- What a call of `RegisterRecord` does: the error it returns (`none` for nil), the
requests it has passed to `httpClient.Do`, in order, and the requests those calls have
written to the network, in order. -/
structure Registration where
  err : Option GoError
  sent : List Request
  wire : List Request := []
  deriving DecidableEq

/-- The payload of `RegisterRecord`, a map literal; the entries are listed in the order
of the source, a Go map has none. -/
def payload (databaseId title : GoString) : GoValue :=
  .map [
    (goStr "parent", .map [
      (goStr "database_id", .string databaseId)]),
    (goStr "properties", .map [
      (goStr "Name", .map [
        (goStr "title", .slice [
          .map [
            (goStr "text", .map [
              (goStr "content", .string title)])]])])])]

/-- The method `NotionClient.RegisterRecord`. -/
def NotionClient.RegisterRecord (c : NotionClient) (databaseId title : GoString) :
    Registration :=
  match Marshal (payload databaseId title) with
  | .error err => { err := some (goStr "error marshalling payload: " ++ err), sent := [] }
  | .ok jsonPayload =>
    match NewRequest (goStr "POST") notionApiUrl jsonPayload with
    | .error err => { err := some (goStr "error creating request: " ++ err), sent := [] }
    | .ok req0 =>
      let h1 := req0.Header.Set (goStr "Content-Type") (goStr "application/json")
      let h2 := h1.Set (goStr "Authorization") (goStr "Bearer " ++ c.token)
      let h3 := h2.Set (goStr "Notion-Version") notionApiVersion
      let req := { req0 with Header := h3 }
      -- the one call c.httpClient.Do(req): what it returns and what it has written
      let call := c.httpClient.exchange req
      match call.result with
      | .error err =>
        { err := some (goStr "error sending request: " ++ err), sent := [req],
          wire := call.wire }
      | .ok resp =>
        if resp.StatusCode ≠ StatusOK then
          let body := (ReadAll resp.Body).1
          { err := some (goStr "API error (status: " ++ fmtInt resp.StatusCode
              ++ goStr "): " ++ body),
            sent := [req], wire := call.wire }
        else { err := none, sent := [req], wire := call.wire }

/-- What the operating system and the network present to one run of the program. -/
structure World where
  /-- The argument list `os.Args`. -/
  args : List GoString
  /-- The environment variables of the process, name and value. -/
  environ : List (GoString × GoString)
  /-- The error of opening `error.log` for appending, `none` when it opens. -/
  openLog : Option GoError
  /-- The lines `error.log` holds before the run. -/
  logBefore : List GoString
  /-- What `godotenv` reads from the file `.env`: its pairs, or the error of reading
  or parsing it. -/
  dotenv : Except GoError (List (GoString × GoString))
  /-- What lies behind the HTTP client: the network and the redirect step. -/
  network : Transport

/-- The observable state of the process. -/
structure Process where
  /-- The bytes written to standard output. -/
  stdout : GoString
  /-- The messages written to standard error. -/
  stderr : List GoString
  /-- The lines of `error.log`; a line is the message of an entry, after the date, the
  time and the source position the logger starts it with. -/
  log : List GoString
  /-- The environment variables of the process. -/
  environ : List (GoString × GoString)
  /-- The requests passed to `httpClient.Do`. -/
  calls : List Request
  /-- The exit code, once the process has ended. -/
  exitCode : Option Nat
  deriving DecidableEq

/-- The message of a log entry: the logger ends it with a newline if it has none. -/
def logLine (msg : GoString) : GoString :=
  if msg.getLast? = some 0x0A then msg else msg ++ [0x0A]

/-- The methods `Printf`, `Println` and `Print` of `logger`: one entry appended to
`error.log`. -/
def Process.logPrint (p : Process) (msg : GoString) : Process :=
  { p with log := p.log ++ [logLine msg] }

/-- The functions `fmt.Printf` and `fmt.Println`: bytes written to standard output. -/
def Process.print (p : Process) (text : GoString) : Process :=
  { p with stdout := p.stdout ++ text }

/-- The function `os.Exit`. -/
def Process.exit (p : Process) (code : Nat) : Process :=
  { p with exitCode := some code }

/-- The function `os.Getenv`: the value of the variable, empty when it is not set. -/
def Getenv (environ : List (GoString × GoString)) (key : GoString) : GoString :=
  match environ.find? (fun e => e.1 = key) with
  | some e => e.2
  | none => []

/-- The function `os.Setenv`: it refuses an empty name, a name with `=` or a zero byte
and a value with a zero byte, and otherwise sets the variable. -/
def Setenv (environ : List (GoString × GoString)) (key value : GoString) :
    List (GoString × GoString) :=
  if key.isEmpty ∨ key.any (fun b => decide (b.val = 0x3D ∨ b.val = 0))
      ∨ value.any (fun b => decide (b.val = 0)) then environ
  else environ.filter (fun e => e.1 ≠ key) ++ [(key, value)]

/-- The function `godotenv.Load` without arguments: the error of reading `.env`, or
every pair of the file set in the environment unless a variable of that name is there
already (`Setenv` errors are dropped). -/
def godotenvLoad (dotenv : Except GoError (List (GoString × GoString)))
    (environ : List (GoString × GoString)) :
    Option GoError × List (GoString × GoString) :=
  match dotenv with
  | .error e => (some e, environ)
  | .ok pairs =>
    (none, pairs.foldl
      (fun env kv => if environ.any (fun e => e.1 = kv.1) then env else Setenv env kv.1 kv.2)
      environ)

/-- The package variables `notionDbId` and `notionToken`, set by `init`. -/
structure Globals where
  notionDbId : GoString
  notionToken : GoString
  deriving DecidableEq

/-- How start-up ends: the process has exited, or `main` is about to run. -/
inductive Startup where
  | exited (p : Process)
  | ready (g : Globals) (p : Process)
  deriving DecidableEq

/-- The function `init`. -/
def init (w : World) : Startup :=
  let p0 : Process :=
    { stdout := [], stderr := [], log := w.logBefore, environ := w.environ, calls := [],
      exitCode := none }
  match w.openLog with
  | some err =>
    -- log.Fatalf: the standard logger writes to standard error, then os.Exit(1)
    .exited ({ p0 with stderr := [logLine (goStr "Failed to open log file: " ++ err)] }.exit 1)
  | none =>
    let loaded := godotenvLoad w.dotenv p0.environ
    let p1 : Process := { p0 with environ := loaded.2 }
    let p2 : Process :=
      match loaded.1 with
      | some err => p1.logPrint (goStr "Error loading .env file: " ++ err)
      | none => p1
    let notionDbId := Getenv p2.environ (goStr "NOTION_DB_ID")
    let notionToken := Getenv p2.environ (goStr "NOTION_TOKEN")
    if notionDbId = [] ∨ notionToken = [] then
      -- logger.Fatal: one entry, then os.Exit(1)
      .exited ((p2.logPrint
        (goStr "Error: NOTION_DB_ID and NOTION_TOKEN environments must be set")).exit 1)
    else .ready { notionDbId := notionDbId, notionToken := notionToken } p2

/-- The function `main`, from the state `init` leaves. -/
def main (w : World) (g : Globals) (p : Process) : Process :=
  if w.args.length < 2 then
    let p1 := p.logPrint (goStr "Error: Insufficient arguments")
    let p2 := p1.print (goStr "Usage: <TRIGGER_NAME> <TITLE>\n")
    p2.exit 1
  else
    let title := w.args.getD 1 []
    let client := NewNotionClient w.network g.notionToken
    let r := client.RegisterRecord g.notionDbId title
    let p1 : Process := { p with calls := p.calls ++ r.sent }
    match r.err with
    | some err =>
      let p2 := p1.logPrint (goStr "Error registering record: " ++ err)
      let p3 := p2.print (goStr "Error: " ++ err ++ goStr "\n")
      p3.exit 1
    | none =>
      let p2 := p1.print (goStr "Successfully registered: " ++ title ++ goStr "\n")
      p2.exit 0

/-- One run of the program: `init`, then `main` unless the process has exited. -/
def run (w : World) : Process :=
  match init w with
  | .exited p => p
  | .ready g p => main w g p

/-! ## Notions the statements use -/

/-- The request `RegisterRecord` is expected to send for a token, a database identifier
and a title. -/
def wireRequest (token databaseId title : GoString) : Request :=
  { Method := goStr "POST",
    URL := goStr "https://api.notion.com/v1/pages",
    Header := [
      (goStr "Content-Type", [goStr "application/json"]),
      (goStr "Authorization", [goStr "Bearer " ++ token]),
      (goStr "Notion-Version", [goStr "2021-05-13"])],
    Body := marshalValue (payload databaseId title) }

/-- The environment after `godotenv.Load`. -/
def loadedEnviron (w : World) : List (GoString × GoString) :=
  (godotenvLoad w.dotenv w.environ).2

/-- The value of `NOTION_DB_ID` after the environment file has been loaded. -/
def configuredDbId (w : World) : GoString := Getenv (loadedEnviron w) (goStr "NOTION_DB_ID")

/-- The value of `NOTION_TOKEN` after the environment file has been loaded. -/
def configuredToken (w : World) : GoString := Getenv (loadedEnviron w) (goStr "NOTION_TOKEN")

/-- The lines of `error.log` once the environment file has been loaded: the lines it
had, and a warning when the file could not be loaded. -/
def logAfterLoad (w : World) : List GoString :=
  match (godotenvLoad w.dotenv w.environ).1 with
  | some err => w.logBefore ++ [logLine (goStr "Error loading .env file: " ++ err)]
  | none => w.logBefore

/-- A valid configuration: the log file opens and both required values are set. -/
def ValidConfiguration (w : World) : Prop :=
  w.openLog = none ∧ configuredDbId w ≠ [] ∧ configuredToken w ≠ []

/-- The call of `RegisterRecord` that `main` makes for a title. -/
def registration (w : World) (title : GoString) : Registration :=
  (NewNotionClient w.network (configuredToken w)).RegisterRecord (configuredDbId w) title

/-- A network that answers every request with the same status code and body, and no
header; no redirect is followed, since no answer has a `Location`. -/
def answering (status : Int) (body : GoString) : Transport :=
  { answer := fun _ => .ok { StatusCode := status, Body := { data := body, err := none } },
    hop := fun _ _ _ => .error (goStr "no Location") }

/-- A network that answers the request to the URL of the API with the status 307 and a
`Location` on the same host, and every other request with the status 200; the request
of the next hop is the first request to the new URL, with the `Referer` set. -/
def redirecting : Transport :=
  { answer := fun req =>
      if req.URL = goStr "https://api.notion.com/v1/pages" then
        .ok { StatusCode := 307, Body := { data := [], err := none },
              Header := [(goStr "Location", [goStr "https://api.notion.com/v1/pages/"])] }
      else .ok { StatusCode := 200, Body := { data := [], err := none } },
    hop := fun first req resp =>
      .ok { first with
            URL := resp.Header.Get (goStr "Location"),
            Header := first.Header.Set (goStr "Referer") req.URL } }

/-- A world with both values in the environment, no `.env` file and the given
arguments and network. -/
def sampleWorld (args : List GoString) (network : Transport) : World :=
  { args := args,
    environ := [(goStr "NOTION_DB_ID", goStr "db123"), (goStr "NOTION_TOKEN", goStr "tok456")],
    openLog := none,
    logBefore := [],
    dotenv := .ok [],
    network := network }

/-- A world in which `NOTION_TOKEN` is set nowhere. -/
def unconfiguredWorld : World :=
  { args := [goStr "alfred-notion", goStr "Buy milk"],
    environ := [(goStr "NOTION_DB_ID", goStr "db123")],
    openLog := none,
    logBefore := [],
    dotenv := .error (goStr "open .env: no such file or directory"),
    network := answering 200 [] }

/-- The body of an answer that refuses the token. -/
def unauthorizedBody : GoString := goStr "\x7b\"message\":\"unauthorized\"\x7d"

/-! ## Notions of the statements on the request body -/

/-- The rune of a two-byte sequence. -/
def rune2 (s0 s1 : Byte) : Nat := ((s0.val &&& 0x1F) <<< 6) ||| (s1.val &&& 0x3F)

/-- The rune of a three-byte sequence. -/
def rune3 (s0 s1 s2 : Byte) : Nat :=
  ((s0.val &&& 0x0F) <<< 12) ||| ((s1.val &&& 0x3F) <<< 6) ||| (s2.val &&& 0x3F)

/-- The rune of a four-byte sequence. -/
def rune4 (s0 s1 s2 s3 : Byte) : Nat :=
  ((s0.val &&& 0x07) <<< 18) ||| ((s1.val &&& 0x3F) <<< 12) ||| ((s2.val &&& 0x3F) <<< 6)
    ||| (s3.val &&& 0x3F)

/-- The multi-byte part of `DecodeRuneInString`, for a size and an accepted range of the
second byte. -/
def decodeMulti (sz lo hi : Nat) (s0 : Byte) (t0 : GoString) : Nat × Nat :=
  if (s0 :: t0).length < sz then (RuneError, 1)
  else
    match t0 with
    | [] => (RuneError, 1)
    | s1 :: t1 =>
      if s1.val < lo ∨ hi < s1.val then (RuneError, 1)
      else if sz ≤ 2 then (rune2 s0 s1, 2)
      else
        match t1 with
        | [] => (RuneError, 1)
        | s2 :: t2 =>
          if s2.val < 0x80 ∨ 0xBF < s2.val then (RuneError, 1)
          else if sz ≤ 3 then (rune3 s0 s1 s2, 3)
          else
            match t2 with
            | [] => (RuneError, 1)
            | s3 :: _ =>
              if s3.val < 0x80 ∨ 0xBF < s3.val then (RuneError, 1)
              else (rune4 s0 s1 s2 s3, 4)

/-- The loop of the coercion to valid UTF-8 that `encoding/json` applies to a string: every
byte that starts no valid sequence is replaced by U+FFFD (EF BF BD), every valid
sequence is kept. -/
def coerceLoop : Nat → GoString → GoString
  | 0, _ => []
  | _ + 1, [] => []
  | fuel + 1, b :: rest =>
    let r := DecodeRuneInString (b :: rest)
    if r.1 = RuneError ∧ r.2 = 1 then [0xEF, 0xBF, 0xBD] ++ coerceLoop fuel rest
    else (b :: rest).take r.2 ++ coerceLoop fuel ((b :: rest).drop r.2)

/-- A string coerced to valid UTF-8, each invalid byte replaced by U+FFFD. -/
def coerceUTF8 (s : GoString) : GoString := coerceLoop s.length s

/-- The JSON value of the fixed shape of the request body, for a database identifier
and a title. -/
def payloadJSON (databaseId title : GoString) : JSON :=
  .object [
    (goStr "parent", .object [
      (goStr "database_id", .string databaseId)]),
    (goStr "properties", .object [
      (goStr "Name", .object [
        (goStr "title", .array [
          .object [
            (goStr "text", .object [
              (goStr "content", .string title)])]])])])]

/-- The string at `properties.Name.title[0].text.content` of a JSON value. -/
def contentOf (j : JSON) : Option GoString :=
  (((((j.member (goStr "properties")).bind (JSON.member (goStr "Name"))).bind
    (JSON.member (goStr "title"))).bind (JSON.element 0)).bind
    (JSON.member (goStr "text"))).bind (JSON.member (goStr "content")) |>.bind JSON.asString

/-- The string at `parent.database_id` of a JSON value. -/
def databaseIdOf (j : JSON) : Option GoString :=
  ((j.member (goStr "parent")).bind (JSON.member (goStr "database_id"))).bind JSON.asString

/-- A Go value whose encoding decodes to a JSON value, whatever follows it, with any
fuel from `f` on. -/
def Decodes (f : Nat) (v : GoValue) (j : JSON) : Prop :=
  ∀ g, f ≤ g → ∀ tail, parseValue g (marshalValue v ++ tail) = some (j, tail)

/-- A title with a double quote, a backslash, a line feed, a control character, `<`,
`>`, `&` and the non-ASCII characters `é` (C3 A9), U+2028 (E2 80 A8) and an emoji
(F0 9F 98 80). -/
def sampleTitle : GoString :=
  goStr "Say \"hi\" \\ <b> & \n" ++ [0x01, 0xC3, 0xA9, 0xE2, 0x80, 0xA8, 0xF0, 0x9F, 0x98, 0x80]

/-! ## RegisterRecord: requests and results -/

theorem Marshal_ok (v : GoValue) : Marshal v = .ok (marshalValue v) := rfl

theorem NewRequest_post (body : List Byte) :
    NewRequest (goStr "POST") notionApiUrl body
      = .ok { Method := goStr "POST", URL := notionApiUrl, Header := [], Body := body } := rfl

/-- The method `RegisterRecord` always reaches the transport, with the expected request, and its
result is decided by what the transport answers. -/
theorem RegisterRecord_eq (c : NotionClient) (databaseId title : GoString) :
    c.RegisterRecord databaseId title =
      match c.httpClient.Do (wireRequest c.token databaseId title) with
      | .error err =>
        { err := some (goStr "error sending request: " ++ err),
          sent := [wireRequest c.token databaseId title],
          wire := (c.httpClient.exchange (wireRequest c.token databaseId title)).wire }
      | .ok resp =>
        if resp.StatusCode ≠ 200 then
          { err := some (goStr "API error (status: " ++ fmtInt resp.StatusCode
              ++ goStr "): " ++ resp.Body.data),
            sent := [wireRequest c.token databaseId title],
            wire := (c.httpClient.exchange (wireRequest c.token databaseId title)).wire }
        else
          { err := none, sent := [wireRequest c.token databaseId title],
            wire := (c.httpClient.exchange (wireRequest c.token databaseId title)).wire } :=
  rfl

theorem RegisterRecord_sent (c : NotionClient) (databaseId title : GoString) :
    (c.RegisterRecord databaseId title).sent = [wireRequest c.token databaseId title] := by
  rw [RegisterRecord_eq]
  cases c.httpClient.Do (wireRequest c.token databaseId title) with
  | error e => rfl
  | ok resp => by_cases h : resp.StatusCode = 200 <;> simp [h]

/-- The requests a call of `RegisterRecord` writes to the network are those of its one
call of `httpClient.Do`. -/
theorem RegisterRecord_wire (c : NotionClient) (databaseId title : GoString) :
    (c.RegisterRecord databaseId title).wire
      = (c.httpClient.exchange (wireRequest c.token databaseId title)).wire := by
  rw [RegisterRecord_eq]
  cases c.httpClient.Do (wireRequest c.token databaseId title) with
  | error e => rfl
  | ok resp => by_cases h : resp.StatusCode = 200 <;> simp [h]

/-! ## The default client -/

theorem clientLoop_wire_length (t : Transport) (first : Request) (fuel : Nat) :
    ∀ (req : Request) (wire : List Request), wire.length < 10 →
      (clientLoop t first fuel req wire).wire.length ≤ 10 := by
  induction fuel with
  | zero => intro req wire h; simp only [clientLoop]; omega
  | succ fuel ih =>
    intro req wire h
    simp only [clientLoop]
    repeat' split
    all_goals
      first
      | (simp only [List.length_append, List.length_cons, List.length_nil]; omega)
      | (apply ih
         simp only [List.length_append, List.length_cons, List.length_nil] at *
         omega)

/-- Ten units of fuel are enough for the loop of the client: more fuel changes
nothing. -/
theorem clientLoop_fuel (t : Transport) (first : Request) (fuel : Nat) :
    ∀ (more : Nat) (req : Request) (wire : List Request), wire.length < 10 →
      10 ≤ wire.length + fuel →
      clientLoop t first (fuel + more) req wire = clientLoop t first fuel req wire := by
  induction fuel with
  | zero => intro more req wire h1 h2; omega
  | succ fuel ih =>
    intro more req wire h1 h2
    have e : fuel + 1 + more = (fuel + more) + 1 := by omega
    rw [e]
    simp only [clientLoop]
    repeat' split
    all_goals
      first
      | rfl
      | (apply ih
         · simp only [List.length_append, List.length_cons, List.length_nil] at *
           omega
         · simp only [List.length_append, List.length_cons, List.length_nil] at *
           omega)

theorem clientDo_refused (t : Transport) (req : Request) (e : GoError)
    (h : preDial req = some e) : clientDo t req = { wire := [], result := .error e } := by
  simp [clientDo, clientLoop, h]

theorem clientDo_once (t : Transport) (req : Request) (h : preDial req = none)
    (hno : ∀ resp, t.answer req = .ok resp →
      isRedirect resp.StatusCode = false ∨ resp.Header.Get (goStr "Location") = []) :
    clientDo t req = { wire := [req], result := t.answer req } := by
  simp only [clientDo, clientLoop, h]
  cases ha : t.answer req with
  | error e => simp
  | ok resp =>
    simp only [List.nil_append]
    rcases hno resp ha with h1 | h1
    · simp [h1]
    · simp [h1]

theorem preDial_wireRequest (token databaseId title : GoString) :
    preDial (wireRequest token databaseId title)
      = if validHeaderFieldValue (goStr "Bearer " ++ token) then none
        else some (goStr "net/http: invalid header") := by
  have hs : getScheme [] (goStr "https://api.notion.com/v1/pages")
      = .ok (goStr "https", goStr "//api.notion.com/v1/pages") := rfl
  simp only [preDial, wireRequest, hs]
  have h1 : (List.map lowerASCII (goStr "https") = goStr "http"
      || List.map lowerASCII (goStr "https") = goStr "https") = true := by decide
  have h2 : validateHeaders
      [(goStr "Content-Type", [goStr "application/json"]),
        (goStr "Authorization", [goStr "Bearer " ++ token]),
        (goStr "Notion-Version", [goStr "2021-05-13"])]
      = validHeaderFieldValue (goStr "Bearer " ++ token) := by
    have a1 : validHeaderFieldName (goStr "Content-Type") = true := by decide
    have a2 : validHeaderFieldName (goStr "Authorization") = true := by decide
    have a3 : validHeaderFieldName (goStr "Notion-Version") = true := by decide
    have b1 : validHeaderFieldValue (goStr "application/json") = true := by decide
    have b3 : validHeaderFieldValue (goStr "2021-05-13") = true := by decide
    simp [validateHeaders, a1, a2, a3, b1, b3]
  rw [h1, h2]
  by_cases hv : validHeaderFieldValue (goStr "Bearer " ++ token) = true
  · rw [hv]
    simp only [Bool.not_true, Bool.and_false, Bool.false_eq_true, if_false, if_true]
    rfl
  · simp only [Bool.not_eq_true] at hv
    rw [hv]
    rfl

/-! ## Claims on RegisterRecord -/

/-- C1: `RegisterRecord` returns no error if and only if the transport delivered a
response whose status code is exactly 200; a transport failure and every other status
code, 201 and 204 among them, make it return an error. -/
theorem registerRecord_nil_iff_status_200 (c : NotionClient) (databaseId title : GoString) :
    ∃ req, (c.RegisterRecord databaseId title).sent = [req]
      ∧ ((c.RegisterRecord databaseId title).err = none
          ↔ ∃ resp, c.httpClient.Do req = .ok resp ∧ resp.StatusCode = 200)
      ∧ (∀ e, c.httpClient.Do req = .error e →
          (c.RegisterRecord databaseId title).err ≠ none)
      ∧ (∀ resp, c.httpClient.Do req = .ok resp → resp.StatusCode ≠ 200 →
          (c.RegisterRecord databaseId title).err ≠ none)
      ∧ (∀ resp, c.httpClient.Do req = .ok resp →
          resp.StatusCode = 201 ∨ resp.StatusCode = 204 →
          (c.RegisterRecord databaseId title).err ≠ none) := by
  refine ⟨wireRequest c.token databaseId title, RegisterRecord_sent c databaseId title, ?_⟩
  rw [RegisterRecord_eq]
  cases hdo : c.httpClient.Do (wireRequest c.token databaseId title) with
  | error e => simp
  | ok resp =>
    by_cases h : resp.StatusCode = 200
    · simp [h]
    · simp only [ne_eq, h, not_false_eq_true, if_true]
      refine ⟨by simp [h], by simp, by simp, by simp⟩

/-- C2: when the endpoint answers with a status code other than 200, `RegisterRecord`
returns an error whose text is `API error (status: <code>): <body>`: it contains the
decimal rendering of the code, and the bytes of the response body in full and
unmodified. -/
theorem registerRecord_api_error_text (c : NotionClient) (databaseId title : GoString)
    (req : Request) (resp : Response)
    (hsent : (c.RegisterRecord databaseId title).sent = [req])
    (hdo : c.httpClient.Do req = .ok resp) (hstatus : resp.StatusCode ≠ 200) :
    ∃ e, (c.RegisterRecord databaseId title).err = some e
      ∧ e = goStr "API error (status: " ++ fmtInt resp.StatusCode ++ goStr "): "
            ++ (ReadAll resp.Body).1
      ∧ fmtInt resp.StatusCode <:+: e
      ∧ (ReadAll resp.Body).1 <:+: e := by
  rw [RegisterRecord_sent] at hsent
  have hreq : wireRequest c.token databaseId title = req := by simpa using hsent
  rw [RegisterRecord_eq, hreq, hdo]
  refine ⟨_, by simp [hstatus, ReadAll], rfl, ?_, ?_⟩
  · exact ⟨goStr "API error (status: ", goStr "): " ++ (ReadAll resp.Body).1, by simp⟩
  · exact ⟨goStr "API error (status: " ++ fmtInt resp.StatusCode ++ goStr "): ", [],
      by simp [ReadAll]⟩

/-- C2, at status 401 with the body `{"message":"unauthorized"}`. -/
theorem registerRecord_api_error_text_witness :
    ((NewNotionClient (answering 401 unauthorizedBody) (goStr "tok456")).RegisterRecord
        (goStr "db123") (goStr "Buy milk")).sent
      = [wireRequest (goStr "tok456") (goStr "db123") (goStr "Buy milk")]
    ∧ ∃ e, ((NewNotionClient (answering 401 unauthorizedBody) (goStr "tok456")).RegisterRecord
        (goStr "db123") (goStr "Buy milk")).err = some e
      ∧ e = goStr "API error (status: " ++ fmtInt 401 ++ goStr "): " ++ unauthorizedBody
      ∧ goStr "401" <:+: e
      ∧ goStr "\x7b\"message\":\"unauthorized\"\x7d" <:+: e :=
  ⟨rfl, registerRecord_api_error_text
    (NewNotionClient (answering 401 unauthorizedBody) (goStr "tok456"))
    (goStr "db123") (goStr "Buy milk")
    (wireRequest (goStr "tok456") (goStr "db123") (goStr "Buy milk"))
    { StatusCode := 401, Body := { data := unauthorizedBody, err := none } }
    rfl rfl (by decide)⟩

/-- C5: the request `RegisterRecord` hands to the transport has method POST, the URL
`https://api.notion.com/v1/pages` and exactly the headers `Content-Type:
application/json`, `Authorization: Bearer <token>` and `Notion-Version: 2021-05-13`;
method, URL and headers are the same for every database identifier and title, and the
body is the same for every client. -/
theorem registerRecord_request (c : NotionClient) (databaseId title : GoString) :
    ∃ req, (c.RegisterRecord databaseId title).sent = [req]
      ∧ req.Method = goStr "POST"
      ∧ req.URL = goStr "https://api.notion.com/v1/pages"
      ∧ req.Header.Get (goStr "Content-Type") = goStr "application/json"
      ∧ req.Header.Get (goStr "Authorization") = goStr "Bearer " ++ c.token
      ∧ req.Header.Get (goStr "Notion-Version") = goStr "2021-05-13"
      ∧ req.Header.map (fun e => e.1)
          = [goStr "Content-Type", goStr "Authorization", goStr "Notion-Version"]
      ∧ (∀ databaseId1 title1, ∃ req1,
          (c.RegisterRecord databaseId1 title1).sent = [req1] ∧ req1.Method = req.Method
            ∧ req1.URL = req.URL ∧ req1.Header = req.Header)
      ∧ (∀ c1 : NotionClient, ∃ req1,
          (c1.RegisterRecord databaseId title).sent = [req1] ∧ req1.Body = req.Body) := by
  refine ⟨wireRequest c.token databaseId title, RegisterRecord_sent c databaseId title,
    rfl, rfl, rfl, rfl, rfl, rfl, ?_, ?_⟩
  · intro d t
    exact ⟨wireRequest c.token d t, RegisterRecord_sent c d t, rfl, rfl, rfl⟩
  · intro c1
    exact ⟨wireRequest c1.token databaseId title, RegisterRecord_sent c1 databaseId title, rfl⟩

/-- C10, amended: one call of `RegisterRecord` calls `httpClient.Do` exactly once:
serialising the payload and constructing the request succeed for every database
identifier and title, so `Do` is always reached, and the requests written to the network
are those of that one call, whatever it returns. Behind the default client they are at
most ten: none when the token makes no valid header value, the one request alone when
the token is valid and the answer is no redirect with a `Location`. -/
theorem registerRecord_one_call (c : NotionClient) (databaseId title : GoString) :
    (∃ jsonPayload, Marshal (payload databaseId title) = .ok jsonPayload
        ∧ ∃ req, NewRequest (goStr "POST") notionApiUrl jsonPayload = .ok req)
      ∧ (∃ req, (c.RegisterRecord databaseId title).sent = [req]
          ∧ (c.RegisterRecord databaseId title).wire = (c.httpClient.exchange req).wire
          ∧ (∀ e, c.httpClient.Do req = .error e →
              (c.RegisterRecord databaseId title).err
                = some (goStr "error sending request: " ++ e)))
      ∧ (∀ (network : Transport) (token : GoString),
          ((NewNotionClient network token).RegisterRecord databaseId title).wire.length ≤ 10
          ∧ (validHeaderFieldValue (goStr "Bearer " ++ token) = false →
              ((NewNotionClient network token).RegisterRecord databaseId title).wire = []
              ∧ ((NewNotionClient network token).RegisterRecord databaseId title).err ≠ none)
          ∧ (validHeaderFieldValue (goStr "Bearer " ++ token) = true →
              (∀ resp, network.answer (wireRequest token databaseId title) = .ok resp →
                isRedirect resp.StatusCode = false
                  ∨ resp.Header.Get (goStr "Location") = []) →
              ((NewNotionClient network token).RegisterRecord databaseId title).wire
                = [wireRequest token databaseId title])) := by
  refine ⟨⟨_, Marshal_ok _, _, NewRequest_post _⟩,
    ⟨wireRequest c.token databaseId title, RegisterRecord_sent c databaseId title,
      RegisterRecord_wire c databaseId title, ?_⟩, ?_⟩
  · intro e he
    rw [RegisterRecord_eq, he]
  · intro network token
    have hw : ((NewNotionClient network token).RegisterRecord databaseId title).wire
        = (clientDo network (wireRequest token databaseId title)).wire :=
      RegisterRecord_wire (NewNotionClient network token) databaseId title
    refine ⟨?_, ?_, ?_⟩
    · rw [hw]
      exact clientLoop_wire_length network _ 10 _ [] (by decide)
    · intro hv
      have hp : preDial (wireRequest token databaseId title)
          = some (goStr "net/http: invalid header") := by
        rw [preDial_wireRequest, hv]; rfl
      have hd := clientDo_refused network _ _ hp
      constructor
      · rw [hw, hd]
      · rw [RegisterRecord_eq]
        have : (NewNotionClient network token).httpClient.Do
            (wireRequest (NewNotionClient network token).token databaseId title)
              = .error (goStr "net/http: invalid header") := by
          simp only [NewNotionClient, HttpClient.Do, hd]
        rw [this]
        simp
    · intro hv hno
      have hp : preDial (wireRequest token databaseId title) = none := by
        rw [preDial_wireRequest, hv]; rfl
      rw [hw, clientDo_once network _ hp hno]

/-- C10 amended, for the token `tok456` behind a network that answers 200. -/
theorem registerRecord_one_call_witness :
    validHeaderFieldValue (goStr "Bearer " ++ goStr "tok456") = true
      ∧ ((NewNotionClient (answering 200 []) (goStr "tok456")).RegisterRecord
          (goStr "db123") (goStr "Buy milk")).wire
        = [wireRequest (goStr "tok456") (goStr "db123") (goStr "Buy milk")] :=
  ⟨by decide,
    ((registerRecord_one_call (NewNotionClient (answering 200 []) (goStr "tok456"))
      (goStr "db123") (goStr "Buy milk")).2.2 (answering 200 []) (goStr "tok456")).2.2
      (by decide) (fun _ h => by injection h with h; subst h; exact Or.inl rfl)⟩

/-- C10 as stated fails: behind a network that answers the first request with 307 and a
`Location`, one call of `RegisterRecord` writes two requests to the network, the
second after the first has been answered, and returns no error; and with a token that
holds a line feed it writes none, the transport refusing the header before it dials. -/
theorem registerRecord_one_call_counterexample :
    (((NewNotionClient redirecting (goStr "tok456")).RegisterRecord
          (goStr "db123") (goStr "Buy milk")).wire
        = [wireRequest (goStr "tok456") (goStr "db123") (goStr "Buy milk"),
            { wireRequest (goStr "tok456") (goStr "db123") (goStr "Buy milk") with
              URL := goStr "https://api.notion.com/v1/pages/",
              Header := (wireRequest (goStr "tok456") (goStr "db123")
                (goStr "Buy milk")).Header.Set (goStr "Referer")
                  (goStr "https://api.notion.com/v1/pages") }]
      ∧ ((NewNotionClient redirecting (goStr "tok456")).RegisterRecord
          (goStr "db123") (goStr "Buy milk")).wire.length = 2
      ∧ ((NewNotionClient redirecting (goStr "tok456")).RegisterRecord
          (goStr "db123") (goStr "Buy milk")).err = none)
    ∧ (((NewNotionClient (answering 200 []) (goStr "tok\n456")).RegisterRecord
          (goStr "db123") (goStr "Buy milk")).wire = []
      ∧ ((NewNotionClient (answering 200 []) (goStr "tok\n456")).RegisterRecord
          (goStr "db123") (goStr "Buy milk")).err ≠ none) :=
  ⟨⟨by rfl, by rfl, by rfl⟩, by rfl, by decide⟩

/-! ## Start-up and main -/

theorem init_of_openLog (w : World) (hopen : w.openLog = none) :
    init w =
      if configuredDbId w = [] ∨ configuredToken w = [] then
        .exited
          { stdout := [], stderr := [],
            log := logAfterLoad w
              ++ [goStr "Error: NOTION_DB_ID and NOTION_TOKEN environments must be set\n"],
            environ := loadedEnviron w, calls := [], exitCode := some 1 }
      else
        .ready { notionDbId := configuredDbId w, notionToken := configuredToken w }
          { stdout := [], stderr := [], log := logAfterLoad w, environ := loadedEnviron w,
            calls := [], exitCode := none } := by
  unfold init
  rw [hopen]
  simp only [configuredDbId, configuredToken, loadedEnviron, logAfterLoad]
  cases h : (godotenvLoad w.dotenv w.environ).1 <;> rfl

theorem init_calls (w : World) :
    (∀ p, init w = .exited p → p.calls = [] ∧ p.stdout = [] ∧ p.exitCode = some 1)
      ∧ (∀ g p, init w = .ready g p → p.calls = [] ∧ p.stdout = [] ∧ p.exitCode = none) := by
  cases hopen : w.openLog with
  | some err =>
    have hinit : ∃ q, init w = .exited q ∧ q.calls = [] ∧ q.stdout = []
        ∧ q.exitCode = some 1 := by
      unfold init; rw [hopen]; exact ⟨_, rfl, rfl, rfl, rfl⟩
    obtain ⟨q, hq, h1, h2, h3⟩ := hinit
    rw [hq]
    constructor
    · intro p hp; cases hp; exact ⟨h1, h2, h3⟩
    · intro g p hp; cases hp
  | none =>
    rw [init_of_openLog w hopen]
    split
    · constructor
      · intro p hp; cases hp; exact ⟨rfl, rfl, rfl⟩
      · intro g p hp; cases hp
    · constructor
      · intro p hp; cases hp
      · intro g p hp; cases hp; exact ⟨rfl, rfl, rfl⟩

theorem main_usage (w : World) (g : Globals) (p : Process) (h : w.args.length < 2) :
    main w g p =
      { p with
        log := p.log ++ [goStr "Error: Insufficient arguments\n"],
        stdout := p.stdout ++ goStr "Usage: <TRIGGER_NAME> <TITLE>\n",
        exitCode := some 1 } := by
  unfold main
  rw [if_pos h]
  rfl

theorem main_register (w : World) (g : Globals) (p : Process) (h : ¬ w.args.length < 2) :
    main w g p =
      match ((NewNotionClient w.network g.notionToken).RegisterRecord g.notionDbId
          (w.args.getD 1 [])).err with
      | some err =>
        { p with
          calls := p.calls ++ ((NewNotionClient w.network g.notionToken).RegisterRecord
            g.notionDbId (w.args.getD 1 [])).sent,
          log := p.log ++ [logLine (goStr "Error registering record: " ++ err)],
          stdout := p.stdout ++ (goStr "Error: " ++ err ++ goStr "\n"),
          exitCode := some 1 }
      | none =>
        { p with
          calls := p.calls ++ ((NewNotionClient w.network g.notionToken).RegisterRecord
            g.notionDbId (w.args.getD 1 [])).sent,
          stdout := p.stdout ++ (goStr "Successfully registered: " ++ w.args.getD 1 []
            ++ goStr "\n"),
          exitCode := some 0 } := by
  unfold main
  rw [if_neg h]
  dsimp only
  cases ((NewNotionClient w.network g.notionToken).RegisterRecord g.notionDbId
      (w.args.getD 1 [])).err <;> rfl

theorem run_of_valid (w : World) (h : ValidConfiguration w) :
    run w = main w { notionDbId := configuredDbId w, notionToken := configuredToken w }
      { stdout := [], stderr := [], log := logAfterLoad w, environ := loadedEnviron w,
        calls := [], exitCode := none } := by
  obtain ⟨hopen, hdb, htok⟩ := h
  unfold run
  rw [init_of_openLog w hopen, if_neg (by simp [hdb, htok])]

/-- C6: with a valid configuration and a first argument, the program exits with code
0 and writes exactly `Successfully registered: <title>` and a newline to standard output
when `RegisterRecord` returns no error, and exits with code 1 and writes `Error: `, the
text of the error and a newline when it returns one; the title registered and printed is
the first argument, whatever arguments follow it. -/
theorem main_reports_outcome (w : World) (program title : GoString) (more : List GoString)
    (hconfig : ValidConfiguration w) (hargs : w.args = program :: title :: more) :
    (run w).calls = (registration w title).sent
      ∧ ((registration w title).err = none →
          (run w).exitCode = some 0
            ∧ (run w).stdout = goStr "Successfully registered: " ++ title ++ goStr "\n")
      ∧ (∀ e, (registration w title).err = some e →
          (run w).exitCode = some 1
            ∧ (run w).stdout = goStr "Error: " ++ e ++ goStr "\n") := by
  have hlen : ¬ w.args.length < 2 := by simp [hargs]
  have htitle : w.args.getD 1 [] = title := by simp [hargs]
  rw [run_of_valid w hconfig, main_register w _ _ hlen, htitle]
  unfold registration
  cases h : ((NewNotionClient w.network (configuredToken w)).RegisterRecord
      (configuredDbId w) title).err with
  | none => simp
  | some e => simp

/-- C6, for the argument `Buy milk`: with a 200 response, and with a 401 response whose
body is `{"message":"unauthorized"}`, other arguments following the title. -/
theorem main_reports_outcome_witness :
    ((run (sampleWorld [goStr "alfred-notion", goStr "Buy milk"] (answering 200 []))).exitCode
        = some 0
      ∧ (run (sampleWorld [goStr "alfred-notion", goStr "Buy milk"] (answering 200 []))).stdout
        = goStr "Successfully registered: Buy milk\n")
    ∧ ((run (sampleWorld [goStr "alfred-notion", goStr "Buy milk", goStr "eggs"]
          (answering 401 unauthorizedBody))).exitCode = some 1
      ∧ (run (sampleWorld [goStr "alfred-notion", goStr "Buy milk", goStr "eggs"]
          (answering 401 unauthorizedBody))).stdout
        = goStr "Error: API error (status: 401): \x7b\"message\":\"unauthorized\"\x7d\n") :=
  ⟨(main_reports_outcome (sampleWorld [goStr "alfred-notion", goStr "Buy milk"]
        (answering 200 [])) (goStr "alfred-notion") (goStr "Buy milk") []
      ⟨rfl, by decide, by decide⟩ rfl).2.1 rfl,
    (main_reports_outcome (sampleWorld [goStr "alfred-notion", goStr "Buy milk", goStr "eggs"]
        (answering 401 unauthorizedBody)) (goStr "alfred-notion") (goStr "Buy milk")
      [goStr "eggs"] ⟨rfl, by decide, by decide⟩ rfl).2.2
      (goStr "API error (status: 401): \x7b\"message\":\"unauthorized\"\x7d") rfl⟩

/-- C7: when the argument list holds no title (only the program name, or nothing),
`main` exits with code 1, writes the usage message to standard output and makes no
network call; the whole run makes none either. -/
theorem main_usage_error (w : World) (g : Globals) (p : Process) (hargs : w.args.length < 2) :
    (main w g p).exitCode = some 1
      ∧ (main w g p).stdout = p.stdout ++ goStr "Usage: <TRIGGER_NAME> <TITLE>\n"
      ∧ (main w g p).calls = p.calls
      ∧ (run w).calls = []
      ∧ (run w).exitCode = some 1
      ∧ (ValidConfiguration w → (run w).stdout = goStr "Usage: <TRIGGER_NAME> <TITLE>\n") := by
  rw [main_usage w g p hargs]
  refine ⟨rfl, rfl, rfl, ?_, ?_, ?_⟩
  · unfold run
    cases hinit : init w with
    | exited q => exact ((init_calls w).1 q hinit).1
    | ready g1 q =>
      simp only []
      rw [main_usage w g1 q hargs]
      exact ((init_calls w).2 g1 q hinit).1
  · unfold run
    cases hinit : init w with
    | exited q => exact ((init_calls w).1 q hinit).2.2
    | ready g1 q =>
      simp only []
      rw [main_usage w g1 q hargs]
  · intro hv
    rw [run_of_valid w hv, main_usage _ _ _ hargs]
    rfl

/-- C7, for an invocation with the program name only. -/
theorem main_usage_error_witness :
    (sampleWorld [goStr "alfred-notion"] (answering 200 [])).args.length < 2
      ∧ (run (sampleWorld [goStr "alfred-notion"] (answering 200 []))).exitCode = some 1
      ∧ (run (sampleWorld [goStr "alfred-notion"] (answering 200 []))).stdout
          = goStr "Usage: <TRIGGER_NAME> <TITLE>\n"
      ∧ (run (sampleWorld [goStr "alfred-notion"] (answering 200 []))).calls = [] :=
  ⟨by decide,
    (main_usage_error (sampleWorld [goStr "alfred-notion"] (answering 200 []))
      ⟨[], []⟩ ⟨[], [], [], [], [], none⟩ (by decide)).2.2.2.2.1,
    (main_usage_error (sampleWorld [goStr "alfred-notion"] (answering 200 []))
      ⟨[], []⟩ ⟨[], [], [], [], [], none⟩ (by decide)).2.2.2.2.2 ⟨rfl, by decide, by decide⟩,
    (main_usage_error (sampleWorld [goStr "alfred-notion"] (answering 200 []))
      ⟨[], []⟩ ⟨[], [], [], [], [], none⟩ (by decide)).2.2.2.1⟩

/-- C8 as stated fails: a run with the program name only, from a valid configuration
and an empty log, leaves one entry in the log file. -/
theorem usage_error_log_counterexample :
    (sampleWorld [goStr "alfred-notion"] (answering 200 [])).logBefore = []
      ∧ init (sampleWorld [goStr "alfred-notion"] (answering 200 []))
          = .ready { notionDbId := goStr "db123", notionToken := goStr "tok456" }
              { stdout := [], stderr := [], log := [],
                environ := [(goStr "NOTION_DB_ID", goStr "db123"),
                  (goStr "NOTION_TOKEN", goStr "tok456")],
                calls := [], exitCode := none }
      ∧ (run (sampleWorld [goStr "alfred-notion"] (answering 200 []))).log
          = [goStr "Error: Insufficient arguments\n"]
      ∧ (run (sampleWorld [goStr "alfred-notion"] (answering 200 []))).log
          ≠ (sampleWorld [goStr "alfred-notion"] (answering 200 [])).logBefore := by
  refine ⟨rfl, rfl, rfl, ?_⟩
  decide

/-- C8, amended: with insufficient arguments `main` appends exactly one entry to the
log file, `Error: Insufficient arguments`, and leaves the earlier entries as they
were. -/
theorem main_usage_error_log (w : World) (g : Globals) (p : Process)
    (hargs : w.args.length < 2) :
    (main w g p).log = p.log ++ [goStr "Error: Insufficient arguments\n"] := by
  rw [main_usage w g p hargs]

/-- C8 amended, for an invocation with the program name only and a log of one line. -/
theorem main_usage_error_log_witness :
    (sampleWorld [goStr "alfred-notion"] (answering 200 [])).args.length < 2
      ∧ (main (sampleWorld [goStr "alfred-notion"] (answering 200 []))
          { notionDbId := goStr "db123", notionToken := goStr "tok456" }
          { stdout := [], stderr := [], log := [goStr "earlier\n"], environ := [],
            calls := [], exitCode := none }).log
        = [goStr "earlier\n", goStr "Error: Insufficient arguments\n"] :=
  ⟨by decide,
    main_usage_error_log (sampleWorld [goStr "alfred-notion"] (answering 200 []))
      { notionDbId := goStr "db123", notionToken := goStr "tok456" }
      { stdout := [], stderr := [], log := [goStr "earlier\n"], environ := [],
        calls := [], exitCode := none } (by decide)⟩

/-- C9: when `NOTION_DB_ID` or `NOTION_TOKEN` is empty after the environment file has
been loaded, start-up appends an entry to the log and ends the process with code 1
before `main` runs, with no network call and nothing on standard output; whenever
`main` runs, both values are the non-empty values of the configuration; and whenever
start-up ends the process, `main` does not run, no network call is made and nothing is
written to standard output. -/
theorem init_requires_configuration (w : World) :
    (w.openLog = none → configuredDbId w = [] ∨ configuredToken w = [] →
        ∃ p, init w = .exited p ∧ run w = p
          ∧ p.log = logAfterLoad w
              ++ [goStr "Error: NOTION_DB_ID and NOTION_TOKEN environments must be set\n"]
          ∧ p.exitCode = some 1 ∧ p.calls = [] ∧ p.stdout = [])
      ∧ (∀ g p, init w = .ready g p →
          w.openLog = none ∧ g.notionDbId ≠ [] ∧ g.notionToken ≠ []
            ∧ g.notionDbId = configuredDbId w ∧ g.notionToken = configuredToken w)
      ∧ (∀ p, init w = .exited p →
          run w = p ∧ p.exitCode = some 1 ∧ p.calls = [] ∧ p.stdout = []) := by
  refine ⟨?_, ?_, ?_⟩
  · intro hopen h
    rw [init_of_openLog w hopen]
    refine ⟨_, if_pos h, ?_, rfl, rfl, rfl, rfl⟩
    unfold run
    rw [init_of_openLog w hopen, if_pos h]
  · intro g p hinit
    cases hopen : w.openLog with
    | some err =>
      have hex : ∃ q, init w = .exited q := by
        unfold init; rw [hopen]; exact ⟨_, rfl⟩
      obtain ⟨q, hq⟩ := hex
      rw [hq] at hinit
      cases hinit
    | none =>
      rw [init_of_openLog w hopen] at hinit
      by_cases h : configuredDbId w = [] ∨ configuredToken w = []
      · rw [if_pos h] at hinit; cases hinit
      · rw [if_neg h] at hinit
        cases hinit
        exact ⟨rfl, fun h1 => h (Or.inl h1), fun h1 => h (Or.inr h1), rfl, rfl⟩
  · intro p hinit
    obtain ⟨h1, h2, h3⟩ := (init_calls w).1 p hinit
    refine ⟨?_, h3, h1, h2⟩
    unfold run
    rw [hinit]

/-- C9, for a world without `NOTION_TOKEN` and without environment file, and for a
world with both values. -/
theorem init_requires_configuration_witness :
    (unconfiguredWorld.openLog = none
      ∧ configuredToken unconfiguredWorld = []
      ∧ (run unconfiguredWorld).log
          = [goStr "Error loading .env file: open .env: no such file or directory\n",
              goStr "Error: NOTION_DB_ID and NOTION_TOKEN environments must be set\n"]
      ∧ (run unconfiguredWorld).exitCode = some 1
      ∧ (run unconfiguredWorld).calls = []
      ∧ (run unconfiguredWorld).stdout = [])
    ∧ (init (sampleWorld [goStr "alfred-notion", goStr "Buy milk"] (answering 200 []))
          = .ready ⟨goStr "db123", goStr "tok456"⟩
              { stdout := [], stderr := [], log := [],
                environ := [(goStr "NOTION_DB_ID", goStr "db123"),
                  (goStr "NOTION_TOKEN", goStr "tok456")],
                calls := [], exitCode := none }
      ∧ (⟨goStr "db123", goStr "tok456"⟩ : Globals).notionDbId ≠ []
      ∧ (⟨goStr "db123", goStr "tok456"⟩ : Globals).notionToken ≠ []) := by
  constructor
  · obtain ⟨p, _, hrun, hlog, hexit, hcalls, hout⟩ :=
      (init_requires_configuration unconfiguredWorld).1 rfl (Or.inr (by decide))
    rw [hrun]
    exact ⟨rfl, by decide, by rw [hlog]; decide, hexit, hcalls, hout⟩
  · have h := (init_requires_configuration
      (sampleWorld [goStr "alfred-notion", goStr "Buy milk"] (answering 200 []))).2.1
      ⟨goStr "db123", goStr "tok456"⟩
      { stdout := [], stderr := [], log := [],
        environ := [(goStr "NOTION_DB_ID", goStr "db123"),
          (goStr "NOTION_TOKEN", goStr "tok456")],
        calls := [], exitCode := none } rfl
    exact ⟨rfl, h.2.1, h.2.2.1⟩

/-! ## unicode/utf8: the shape of a decoded sequence -/

theorem first_cases (b : Nat) :
    first b = 0xF0 ∨ first b = 0xF1 ∨ first b = 0x02 ∨ first b = 0x13 ∨ first b = 0x03
      ∨ first b = 0x23 ∨ first b = 0x34 ∨ first b = 0x04 ∨ first b = 0x44 := by
  unfold first
  split_ifs <;> simp

theorem decode_eq_multi (s0 : Byte) (t0 : GoString) (hlt : ¬ first s0.val ≥ 0xF0) :
    DecodeRuneInString (s0 :: t0)
      = decodeMulti (first s0.val &&& 7) (acceptRanges (first s0.val >>> 4)).1
          (acceptRanges (first s0.val >>> 4)).2 s0 t0 := by
  simp only [DecodeRuneInString, if_neg hlt]
  rfl

theorem first_size (b : Nat) (h : ¬ first b ≥ 0xF0) :
    first b &&& 7 = 2 ∨ first b &&& 7 = 3 ∨ first b &&& 7 = 4 := by
  rcases first_cases b with hx | hx | hx | hx | hx | hx | hx | hx | hx <;>
    first | omega | (rw [hx]; decide)

set_option maxHeartbeats 4000000 in
theorem decodeMulti_shape (sz lo hi : Nat) (hsz : sz = 2 ∨ sz = 3 ∨ sz = 4) (s0 : Byte)
    (t0 : GoString) :
    (decodeMulti sz lo hi s0 t0).2 = 1
    ∨ (∃ s1 t1, t0 = s1 :: t1 ∧ (decodeMulti sz lo hi s0 t0).2 = 2
        ∧ ∀ tail, decodeMulti sz lo hi s0 (s1 :: tail) = decodeMulti sz lo hi s0 t0)
    ∨ (∃ s1 s2 t2, t0 = s1 :: s2 :: t2 ∧ (decodeMulti sz lo hi s0 t0).2 = 3
        ∧ ∀ tail, decodeMulti sz lo hi s0 (s1 :: s2 :: tail) = decodeMulti sz lo hi s0 t0)
    ∨ (∃ s1 s2 s3 t3, t0 = s1 :: s2 :: s3 :: t3 ∧ (decodeMulti sz lo hi s0 t0).2 = 4
        ∧ ∀ tail, decodeMulti sz lo hi s0 (s1 :: s2 :: s3 :: tail)
            = decodeMulti sz lo hi s0 t0) := by
  rcases hsz with rfl | rfl | rfl <;>
  rcases t0 with _ | ⟨s1, _ | ⟨s2, _ | ⟨s3, t3⟩⟩⟩ <;>
  simp [decodeMulti] <;>
  split_ifs <;> simp
  all_goals
    first
    | exact ⟨_, _, ⟨rfl, rfl⟩, fun tail => by
        rw [if_neg (by omega), if_neg (by omega), if_neg (by omega)]⟩
    | exact ⟨_, _, _, ⟨rfl, rfl, rfl⟩, fun tail => by
        rw [if_neg (by omega), if_neg (by omega), if_neg (by omega), if_neg (by omega)]⟩

theorem decode_shape (s0 : Byte) (t0 : GoString) :
    (DecodeRuneInString (s0 :: t0)).2 = 1
    ∨ (∃ s1 t1, t0 = s1 :: t1 ∧ (DecodeRuneInString (s0 :: t0)).2 = 2
        ∧ ∀ tail, DecodeRuneInString (s0 :: s1 :: tail) = DecodeRuneInString (s0 :: t0))
    ∨ (∃ s1 s2 t2, t0 = s1 :: s2 :: t2 ∧ (DecodeRuneInString (s0 :: t0)).2 = 3
        ∧ ∀ tail, DecodeRuneInString (s0 :: s1 :: s2 :: tail) = DecodeRuneInString (s0 :: t0))
    ∨ (∃ s1 s2 s3 t3, t0 = s1 :: s2 :: s3 :: t3 ∧ (DecodeRuneInString (s0 :: t0)).2 = 4
        ∧ ∀ tail, DecodeRuneInString (s0 :: s1 :: s2 :: s3 :: tail)
            = DecodeRuneInString (s0 :: t0)) := by
  by_cases h : first s0.val ≥ 0xF0
  · left
    simp [DecodeRuneInString, h]
  · simp only [decode_eq_multi s0 _ h]
    exact decodeMulti_shape _ _ _ (first_size _ h) s0 t0

/-- A valid sequence is decoded from its own bytes alone. -/
theorem decode_take_append (s tail : GoString) (h : 2 ≤ (DecodeRuneInString s).2) :
    DecodeRuneInString (s.take (DecodeRuneInString s).2 ++ tail) = DecodeRuneInString s
      ∧ (DecodeRuneInString s).2 ≤ s.length := by
  match s with
  | [] => simp [DecodeRuneInString] at h
  | s0 :: t0 =>
    rcases decode_shape s0 t0 with h1 | ⟨s1, t1, rfl, h2, hall⟩ | ⟨s1, s2, t2, rfl, h2, hall⟩
      | ⟨s1, s2, s3, t3, rfl, h2, hall⟩
    · omega
    · rw [h2]; exact ⟨hall tail, by simp⟩
    · rw [h2]; exact ⟨hall tail, by simp⟩
    · rw [h2]; exact ⟨hall tail, by simp⟩

theorem decode_size_le (s : GoString) : (DecodeRuneInString s).2 ≤ 4 := by
  match s with
  | [] => simp [DecodeRuneInString]
  | s0 :: t0 =>
    rcases decode_shape s0 t0 with h1 | ⟨s1, t1, rfl, h2, hall⟩ | ⟨s1, s2, t2, rfl, h2, hall⟩
      | ⟨s1, s2, s3, t3, rfl, h2, hall⟩ <;> omega

theorem decode_size_pos (b : Byte) (rest : GoString) :
    1 ≤ (DecodeRuneInString (b :: rest)).2 := by
  rcases decode_shape b rest with h1 | ⟨s1, t1, rfl, h2, hall⟩ | ⟨s1, s2, t2, rfl, h2, hall⟩
    | ⟨s1, s2, s3, t3, rfl, h2, hall⟩ <;> omega

set_option maxHeartbeats 4000000 in
/-- The function `DecodeRuneInString` reads at most `UTFMax` bytes. -/
theorem decode_take_UTFMax (s : GoString) :
    DecodeRuneInString (s.take UTFMax) = DecodeRuneInString s := by
  match s with
  | [] => rfl
  | s0 :: t0 =>
    rcases decode_shape s0 t0 with h1 | ⟨s1, t1, rfl, h2, hall⟩ | ⟨s1, s2, t2, rfl, h2, hall⟩
      | ⟨s1, s2, s3, t3, rfl, h2, hall⟩
    · by_cases h : first s0.val ≥ 0xF0
      · simp [DecodeRuneInString, h, UTFMax]
      · have hs := first_size _ h
        rw [decode_eq_multi s0 _ h] at h1
        have e : (s0 :: t0).take UTFMax = s0 :: t0.take 3 := rfl
        rw [e, decode_eq_multi s0 _ h, decode_eq_multi s0 _ h]
        revert h1
        generalize (acceptRanges (first s0.val >>> 4)).1 = lo
        generalize (acceptRanges (first s0.val >>> 4)).2 = hi
        generalize first s0.val &&& 7 = sz at hs
        rcases hs with rfl | rfl | rfl <;>
        rcases t0 with _ | ⟨s1, _ | ⟨s2, _ | ⟨s3, t3⟩⟩⟩ <;>
        simp [decodeMulti] <;>
        split_ifs <;> simp
        all_goals omega
    · exact hall _
    · exact hall _
    · exact hall _


theorem rune2_eq (s0 s1 : Byte) : rune2 s0 s1 = (s0.val % 32) * 64 + s1.val % 64 := by
  unfold rune2
  have h0 : s0.val &&& 0x1F = s0.val % 32 := Nat.and_pow_two_sub_one_eq_mod s0.val 5
  have h1 : s1.val &&& 0x3F = s1.val % 64 := Nat.and_pow_two_sub_one_eq_mod s1.val 6
  rw [h0, h1, Nat.shiftLeft_eq]
  have := Nat.mul_add_lt_is_or (Nat.mod_lt s1.val (by decide : 0 < 2 ^ 6)) (s0.val % 32)
  rw [Nat.mul_comm] at this
  exact this.symm

theorem rune3_eq (s0 s1 s2 : Byte) :
    rune3 s0 s1 s2 = (s0.val % 16) * 4096 + (s1.val % 64) * 64 + s2.val % 64 := by
  unfold rune3
  have h0 : s0.val &&& 0x0F = s0.val % 16 := Nat.and_pow_two_sub_one_eq_mod s0.val 4
  have h1 : s1.val &&& 0x3F = s1.val % 64 := Nat.and_pow_two_sub_one_eq_mod s1.val 6
  have h2 : s2.val &&& 0x3F = s2.val % 64 := Nat.and_pow_two_sub_one_eq_mod s2.val 6
  rw [h0, h1, h2, Nat.shiftLeft_eq, Nat.shiftLeft_eq]
  have e1 : s0.val % 16 * 2 ^ 12 ||| s1.val % 64 * 2 ^ 6
      = s0.val % 16 * 2 ^ 12 + s1.val % 64 * 2 ^ 6 := by
    have := Nat.mul_add_lt_is_or (i := 12) (b := s1.val % 64 * 2 ^ 6) (by omega) (s0.val % 16)
    rw [Nat.mul_comm] at this
    exact this.symm
  rw [e1]
  have e2 : s0.val % 16 * 2 ^ 12 + s1.val % 64 * 2 ^ 6
      = 2 ^ 6 * (s0.val % 16 * 64 + s1.val % 64) := by omega
  rw [e2, ← Nat.mul_add_lt_is_or (Nat.mod_lt s2.val (by decide : 0 < 2 ^ 6))]
  omega

theorem rune4_eq (s0 s1 s2 s3 : Byte) :
    rune4 s0 s1 s2 s3
      = (s0.val % 8) * 262144 + (s1.val % 64) * 4096 + (s2.val % 64) * 64 + s3.val % 64 := by
  unfold rune4
  have h0 : s0.val &&& 0x07 = s0.val % 8 := Nat.and_pow_two_sub_one_eq_mod s0.val 3
  have h1 : s1.val &&& 0x3F = s1.val % 64 := Nat.and_pow_two_sub_one_eq_mod s1.val 6
  have h2 : s2.val &&& 0x3F = s2.val % 64 := Nat.and_pow_two_sub_one_eq_mod s2.val 6
  have h3 : s3.val &&& 0x3F = s3.val % 64 := Nat.and_pow_two_sub_one_eq_mod s3.val 6
  rw [h0, h1, h2, h3, Nat.shiftLeft_eq, Nat.shiftLeft_eq, Nat.shiftLeft_eq]
  have e1 : s0.val % 8 * 2 ^ 18 ||| s1.val % 64 * 2 ^ 12
      = s0.val % 8 * 2 ^ 18 + s1.val % 64 * 2 ^ 12 := by
    have := Nat.mul_add_lt_is_or (i := 18) (b := s1.val % 64 * 2 ^ 12) (by omega) (s0.val % 8)
    rw [Nat.mul_comm] at this
    exact this.symm
  rw [e1]
  have e2 : s0.val % 8 * 2 ^ 18 + s1.val % 64 * 2 ^ 12 ||| s2.val % 64 * 2 ^ 6
      = s0.val % 8 * 2 ^ 18 + s1.val % 64 * 2 ^ 12 + s2.val % 64 * 2 ^ 6 := by
    have := Nat.mul_add_lt_is_or (i := 12) (b := s2.val % 64 * 2 ^ 6) (by omega)
      (s0.val % 8 * 64 + s1.val % 64)
    have e : 2 ^ 12 * (s0.val % 8 * 64 + s1.val % 64)
        = s0.val % 8 * 2 ^ 18 + s1.val % 64 * 2 ^ 12 := by omega
    rw [e] at this
    exact this.symm
  rw [e2]
  have e3 : s0.val % 8 * 2 ^ 18 + s1.val % 64 * 2 ^ 12 + s2.val % 64 * 2 ^ 6
      = 2 ^ 6 * (s0.val % 8 * 4096 + s1.val % 64 * 64 + s2.val % 64) := by omega
  rw [e3, ← Nat.mul_add_lt_is_or (Nat.mod_lt s3.val (by decide : 0 < 2 ^ 6))]
  omega

set_option maxHeartbeats 2000000 in
theorem first_class (b : Nat) (h : ¬ first b ≥ 0xF0) :
    0x80 ≤ (acceptRanges (first b >>> 4)).1 ∧ (acceptRanges (first b >>> 4)).2 ≤ 0xBF
    ∧ ((first b &&& 7 = 2 ∧ 0xC2 ≤ b ∧ b < 0xE0)
      ∨ (first b &&& 7 = 3 ∧ 0xE0 ≤ b ∧ b < 0xF0)
      ∨ (first b &&& 7 = 4 ∧ 0xF0 ≤ b ∧ b ≤ 0xF4
          ∧ (b = 0xF0 → (acceptRanges (first b >>> 4)).1 = 0x90))) := by
  revert h
  unfold first
  have a1 : (2 : Nat) &&& 7 = 2 := by decide
  have a2 : (19 : Nat) &&& 7 = 3 := by decide
  have a3 : (3 : Nat) &&& 7 = 3 := by decide
  have a4 : (35 : Nat) &&& 7 = 3 := by decide
  have a5 : (52 : Nat) &&& 7 = 4 := by decide
  have a6 : (4 : Nat) &&& 7 = 4 := by decide
  have a7 : (68 : Nat) &&& 7 = 4 := by decide
  split_ifs <;> intro h <;> simp [acceptRanges, a1, a2, a3, a4, a5, a6, a7] <;> omega

theorem decodeMulti_two (lo hi : Nat) (s0 : Byte) (t0 : GoString) :
    (decodeMulti 2 lo hi s0 t0).1 = RuneError ∨ (decodeMulti 2 lo hi s0 t0).1 < 0x800 := by
  rcases t0 with _ | ⟨s1, t1⟩
  · left; rfl
  · simp only [decodeMulti, List.length_cons, Nat.reduceLeDiff, if_true]
    split_ifs
    · left; rfl
    · left; rfl
    · right
      show rune2 s0 s1 < 0x800
      rw [rune2_eq]; omega

theorem decodeMulti_four (lo hi : Nat) (s0 : Byte) (t0 : GoString)
    (h0 : 0xF0 ≤ s0.val) (h2 : s0.val ≤ 0xF4) (h1 : s0.val = 0xF0 → lo = 0x90)
    (hhi : hi ≤ 0xBF) :
    (decodeMulti 4 lo hi s0 t0).1 = RuneError ∨ 0x10000 ≤ (decodeMulti 4 lo hi s0 t0).1 := by
  have hb0 := s0.isLt
  rcases t0 with _ | ⟨s1, _ | ⟨s2, _ | ⟨s3, t3⟩⟩⟩
  · left; rfl
  · left; rfl
  · left; rfl
  · simp only [decodeMulti, List.length_cons, Nat.reduceLeDiff, if_false]
    split_ifs
    · left; rfl
    · left; rfl
    · left; rfl
    · left; rfl
    · right
      show 0x10000 ≤ rune4 s0 s1 s2 s3
      rw [rune4_eq]; omega

theorem decodeMulti_three (lo hi : Nat) (s0 : Byte) (t0 : GoString)
    (h0 : 0xE0 ≤ s0.val) (h1 : s0.val < 0xF0) (hlo : 0x80 ≤ lo) (hhi : hi ≤ 0xBF)
    (h : (decodeMulti 3 lo hi s0 t0).1 = 0x2028 ∨ (decodeMulti 3 lo hi s0 t0).1 = 0x2029) :
    (decodeMulti 3 lo hi s0 t0).2 = 3
      ∧ ∃ s1 s2 t2, t0 = s1 :: s2 :: t2 ∧ s0.val = 0xE2 ∧ s1.val = 0x80
          ∧ s2.val + 0x2028 = (decodeMulti 3 lo hi s0 t0).1 + 0xA8 := by
  have hne : ¬ (RuneError = 0x2028 ∨ RuneError = 0x2029) := by decide
  rcases t0 with _ | ⟨s1, _ | ⟨s2, t2⟩⟩
  · exact absurd h hne
  · exact absurd h hne
  · simp only [decodeMulti, List.length_cons, Nat.reduceLeDiff, if_true, if_false] at h ⊢
    split_ifs at h ⊢
    · exact absurd h hne
    · exact absurd h hne
    · exact absurd h hne
    · refine ⟨rfl, s1, s2, t2, rfl, ?_⟩
      simp only [rune3_eq] at h ⊢
      omega

/-- Only the bytes E2 80 A8 and E2 80 A9 decode to U+2028 and U+2029. -/
theorem decode_line_sep (s0 : Byte) (t0 : GoString)
    (h : (DecodeRuneInString (s0 :: t0)).1 = 0x2028
      ∨ (DecodeRuneInString (s0 :: t0)).1 = 0x2029) :
    (DecodeRuneInString (s0 :: t0)).2 = 3
      ∧ ∃ s1 s2 t2, t0 = s1 :: s2 :: t2 ∧ s0.val = 0xE2 ∧ s1.val = 0x80
          ∧ s2.val + 0x2028 = (DecodeRuneInString (s0 :: t0)).1 + 0xA8 := by
  by_cases hf : first s0.val ≥ 0xF0
  · exfalso
    have hb := s0.isLt
    simp only [DecodeRuneInString, hf, if_true, RuneError] at h
    split_ifs at h <;> omega
  · obtain ⟨hlo, hhi, hcl⟩ := first_class s0.val hf
    rw [decode_eq_multi s0 _ hf] at h ⊢
    rcases hcl with ⟨hsz, h1, h2⟩ | ⟨hsz, h1, h2⟩ | ⟨hsz, h1, h2, h3⟩
    · rw [hsz] at h
      have := decodeMulti_two (acceptRanges (first s0.val >>> 4)).1
        (acceptRanges (first s0.val >>> 4)).2 s0 t0
      simp only [RuneError] at this
      omega
    · rw [hsz] at h ⊢
      exact decodeMulti_three _ _ s0 t0 h1 h2 hlo hhi h
    · rw [hsz] at h
      have := decodeMulti_four (acceptRanges (first s0.val >>> 4)).1
        (acceptRanges (first s0.val >>> 4)).2 s0 t0 h1 h2 h3 hhi
      simp only [RuneError] at this
      omega


/-! ## Decoding what appendString writes -/

theorem byte_ofNat_val (b : Byte) : (Fin.ofNat b.val : Byte) = b := by
  apply Fin.ext
  have := b.isLt
  simp [Fin.ofNat]

theorem hexVal_hex : ∀ n : Fin 16, hexVal (hex n.val) = some n.val := by decide

theorem parseHex4_byte (b : Byte) (rest : List Byte) :
    parseHex4 (0x30 :: 0x30 :: hex (b.val >>> 4) :: hex (b.val &&& 0xF) :: rest)
      = some (b.val, rest) := by
  have hb := b.isLt
  have h1 : b.val >>> 4 = b.val / 16 := Nat.shiftRight_eq_div_pow b.val 4
  have h2 : b.val &&& 0xF = b.val % 16 := Nat.and_pow_two_sub_one_eq_mod b.val 4
  have e1 := hexVal_hex ⟨b.val / 16, by omega⟩
  have e2 := hexVal_hex ⟨b.val % 16, by omega⟩
  have e0 : hexVal (0x30 : Byte) = some 0 := by decide
  simp only [] at e1 e2
  simp only [parseHex4, h1, h2, e0, e1, e2]
  congr 2
  omega

theorem parseBody_quote (f : Nat) (rest : List Byte) :
    parseStringBody (f + 1) (0x22 :: rest) = some ([], rest) := rfl

theorem parseBody_simple (f : Nat) (e c : Byte) (rest : List Byte) (hu : e.val ≠ 0x75)
    (hs : simpleEscape e = some c) :
    parseStringBody (f + 1) (0x5C :: e :: rest)
      = (parseStringBody f rest).map (fun p => (c :: p.1, p.2)) := by
  have h : parseStringBody (f + 1) (0x5C :: e :: rest)
      = if e.val = 0x75 then
          match parseUnicodeEscape rest with
          | none => none
          | some (r, rest2) =>
            (parseStringBody f rest2).map (fun p => (encodeRune r ++ p.1, p.2))
        else
          match simpleEscape e with
          | none => none
          | some c => (parseStringBody f rest).map (fun p => (c :: p.1, p.2)) := rfl
  rw [h, if_neg hu, hs]

theorem parseBody_unicode (f : Nat) (r : Nat) (inp rest : List Byte)
    (hp : parseUnicodeEscape inp = some (r, rest)) :
    parseStringBody (f + 1) (0x5C :: 0x75 :: inp)
      = (parseStringBody f rest).map (fun p => (encodeRune r ++ p.1, p.2)) := by
  have h : parseStringBody (f + 1) (0x5C :: 0x75 :: inp)
      = match parseUnicodeEscape inp with
        | none => none
        | some (r, rest2) =>
          (parseStringBody f rest2).map (fun p => (encodeRune r ++ p.1, p.2)) := rfl
  rw [h, hp]

theorem parseBody_safe (f : Nat) (b : Byte) (rest : List Byte) (h : htmlSafeSet b.val = true) :
    parseStringBody (f + 1) (b :: rest)
      = (parseStringBody f rest).map (fun p => (b :: p.1, p.2)) := by
  simp only [htmlSafeSet, decide_eq_true_eq] at h
  simp only [parseStringBody]
  rw [if_neg (by omega), if_neg (by omega), if_neg (by omega), if_pos (by omega)]

theorem parseBody_escape (f : Nat) (b : Byte) (rest : List Byte) (hlt : b.val < 0x80)
    (h : htmlSafeSet b.val = false) :
    parseStringBody (f + 1) (escapeASCII b ++ rest)
      = (parseStringBody f rest).map (fun p => (b :: p.1, p.2)) := by
  simp only [htmlSafeSet, decide_eq_false_iff_not] at h
  unfold escapeASCII
  split_ifs with h1 h2 h3 h4 h5 h6
  · have hs : simpleEscape b = some b := by
      unfold simpleEscape
      rcases h1 with h1 | h1
      · rw [if_neg (by omega), if_pos h1]; congr 1; exact Fin.ext h1.symm
      · rw [if_pos h1]; congr 1; exact Fin.ext h1.symm
    exact parseBody_simple f b b rest (by omega) hs
  · have : b = 0x08 := Fin.ext h2
    subst this
    exact parseBody_simple f 0x62 0x08 rest (by decide) rfl
  · have : b = 0x0C := Fin.ext h3
    subst this
    exact parseBody_simple f 0x66 0x0C rest (by decide) rfl
  · have : b = 0x0A := Fin.ext h4
    subst this
    exact parseBody_simple f 0x6E 0x0A rest (by decide) rfl
  · have : b = 0x0D := Fin.ext h5
    subst this
    exact parseBody_simple f 0x72 0x0D rest (by decide) rfl
  · have : b = 0x09 := Fin.ext h6
    subst this
    exact parseBody_simple f 0x74 0x09 rest (by decide) rfl
  · have hp : parseUnicodeEscape
        (0x30 :: 0x30 :: hex (b.val >>> 4) :: hex (b.val &&& 0xF) :: rest)
          = some (b.val, rest) := by
      unfold parseUnicodeEscape
      rw [parseHex4_byte]
      simp only []
      rw [if_neg (by omega), if_neg (by omega)]
    have he : encodeRune b.val = [b] := by
      unfold encodeRune
      rw [if_pos hlt, byte_ofNat_val]
    have := parseBody_unicode f b.val _ rest hp
    rw [he] at this
    exact this

theorem parseBody_replacement (f : Nat) (rest : List Byte) :
    parseStringBody (f + 1) (goStr "\\ufffd" ++ rest)
      = (parseStringBody f rest).map (fun p => ([0xEF, 0xBF, 0xBD] ++ p.1, p.2)) :=
  parseBody_unicode f 0xFFFD (0x66 :: 0x66 :: 0x66 :: 0x64 :: rest) rest rfl

theorem parseBody_line_sep (f : Nat) (c : Nat) (hc : c = 0x2028 ∨ c = 0x2029)
    (rest : List Byte) :
    parseStringBody (f + 1) ([0x5C, 0x75, 0x32, 0x30, 0x32, hex (c &&& 0xF)] ++ rest)
      = (parseStringBody f rest).map
          (fun p => ([0xE2, 0x80, Fin.ofNat (c - 0x2028 + 0xA8)] ++ p.1, p.2)) := by
  rcases hc with rfl | rfl
  · exact parseBody_unicode f 0x2028 (0x32 :: 0x30 :: 0x32 :: 0x38 :: rest) rest rfl
  · exact parseBody_unicode f 0x2029 (0x32 :: 0x30 :: 0x32 :: 0x39 :: rest) rest rfl

theorem first_ne_ascii (b : Nat) (h : ¬ b < 0x80) : first b ≠ 0xF0 := by
  unfold first
  split_ifs <;> simp

theorem decodeMulti_one (sz lo hi : Nat) (s0 : Byte) (t0 : GoString)
    (h : (decodeMulti sz lo hi s0 t0).2 = 1) : (decodeMulti sz lo hi s0 t0).1 = RuneError := by
  revert h
  rcases t0 with _ | ⟨s1, _ | ⟨s2, _ | ⟨s3, t3⟩⟩⟩ <;>
  simp only [decodeMulti] <;>
  split_ifs <;> simp

/-- A sequence of width one that starts with a byte from 0x80 on is invalid. -/
theorem decode_one (b : Byte) (rest : GoString) (hb : ¬ b.val < 0x80)
    (h : (DecodeRuneInString (b :: rest)).2 = 1) :
    (DecodeRuneInString (b :: rest)).1 = RuneError := by
  by_cases hf : first b.val ≥ 0xF0
  · have h1 : first b.val = 0xF1 := by
      have := first_ne_ascii b.val hb
      rcases first_cases b.val with hx | hx | hx | hx | hx | hx | hx | hx | hx <;> omega
    simp [DecodeRuneInString, h1]
  · rw [decode_eq_multi b rest hf] at h ⊢
    exact decodeMulti_one _ _ _ _ _ h

theorem parseBody_high (f : Nat) (b : Byte) (rest : List Byte) (hb : ¬ b.val < 0x80) :
    parseStringBody (f + 1) (b :: rest)
      = if (DecodeRuneInString (b :: rest)).1 = RuneError
            ∧ (DecodeRuneInString (b :: rest)).2 = 1 then none
        else
          (parseStringBody f ((b :: rest).drop (DecodeRuneInString (b :: rest)).2)).map
            (fun p => ((b :: rest).take (DecodeRuneInString (b :: rest)).2 ++ p.1, p.2)) := by
  simp only [parseStringBody]
  rw [if_neg (by omega), if_neg (by omega), if_neg (by omega), if_neg (by omega)]

theorem parseBody_raw (f : Nat) (b : Byte) (rest tail : List Byte) (hb : ¬ b.val < 0x80)
    (hv : ¬ ((DecodeRuneInString (b :: rest)).1 = RuneError
      ∧ (DecodeRuneInString (b :: rest)).2 = 1)) :
    parseStringBody (f + 1) ((b :: rest).take (DecodeRuneInString (b :: rest)).2 ++ tail)
      = (parseStringBody f tail).map
          (fun p => ((b :: rest).take (DecodeRuneInString (b :: rest)).2 ++ p.1, p.2)) := by
  have hpos := decode_size_pos b rest
  have h2 : 2 ≤ (DecodeRuneInString (b :: rest)).2 := by
    by_contra hlt
    exact hv ⟨decode_one b rest hb (by omega), by omega⟩
  obtain ⟨hd, hlen⟩ := decode_take_append (b :: rest) tail h2
  generalize hr : DecodeRuneInString (b :: rest) = r at *
  obtain ⟨n, hn⟩ : ∃ n, r.2 = n + 1 := ⟨r.2 - 1, by omega⟩
  rw [hn] at hd ⊢
  simp only [List.take_succ_cons, List.cons_append] at hd ⊢
  rw [parseBody_high f b _ hb, hd, if_neg hv, hn]
  have hl : (List.take n rest).length = n := by
    simp only [List.length_cons] at hlen
    rw [List.length_take]; omega
  have e1 : List.drop (n + 1) (b :: (List.take n rest ++ tail)) = tail := by
    rw [List.drop_succ_cons, List.drop_append_of_le_length (by omega), List.drop_eq_nil_of_le
      (by omega), List.nil_append]
  have e2 : List.take (n + 1) (b :: (List.take n rest ++ tail)) = b :: List.take n rest := by
    rw [List.take_succ_cons, List.take_append_of_le_length (by omega),
      (List.take_eq_self_iff _).mpr (by omega)]
  rw [e1, e2]
  rfl


theorem first_ascii (b : Nat) (h : b < 0x80) : first b = 0xF0 := by
  unfold first; rw [if_pos h]

theorem decode_ascii (b : Byte) (rest : GoString) (h : b.val < 0x80) :
    DecodeRuneInString (b :: rest) = (b.val, 1) := by
  simp [DecodeRuneInString, first_ascii b.val h]

theorem appendStringLoop_cons (n : Nat) (b : Byte) (rest : GoString) :
    appendStringLoop (n + 1) (b :: rest) =
      if b.val < 0x80 then
        if htmlSafeSet b.val then b :: appendStringLoop n rest
        else escapeASCII b ++ appendStringLoop n rest
      else
        if (DecodeRuneInString (b :: rest)).1 = RuneError
            ∧ (DecodeRuneInString (b :: rest)).2 = 1 then
          goStr "\\ufffd" ++ appendStringLoop n rest
        else if (DecodeRuneInString (b :: rest)).1 = 0x2028
            ∨ (DecodeRuneInString (b :: rest)).1 = 0x2029 then
          [0x5C, 0x75, 0x32, 0x30, 0x32, hex ((DecodeRuneInString (b :: rest)).1 &&& 0xF)]
            ++ appendStringLoop n ((b :: rest).drop (DecodeRuneInString (b :: rest)).2)
        else
          (b :: rest).take (DecodeRuneInString (b :: rest)).2
            ++ appendStringLoop n ((b :: rest).drop (DecodeRuneInString (b :: rest)).2) := by
  rw [← decode_take_UTFMax (b :: rest)]
  rfl

theorem coerceLoop_cons (n : Nat) (b : Byte) (rest : GoString) :
    coerceLoop (n + 1) (b :: rest) =
      if (DecodeRuneInString (b :: rest)).1 = RuneError
          ∧ (DecodeRuneInString (b :: rest)).2 = 1 then
        [0xEF, 0xBF, 0xBD] ++ coerceLoop n rest
      else
        (b :: rest).take (DecodeRuneInString (b :: rest)).2
          ++ coerceLoop n ((b :: rest).drop (DecodeRuneInString (b :: rest)).2) := rfl

theorem escapeASCII_length (b : Byte) : 1 ≤ (escapeASCII b).length := by
  unfold escapeASCII
  split_ifs <;> simp

/-- The string decoder reads back what the loop of `appendString` has written: the
source coerced to valid UTF-8. -/
theorem parseBody_appendStringLoop (n : Nat) :
    ∀ (src tail : GoString) (f : Nat), src.length ≤ n →
      (appendStringLoop n src).length < f →
      parseStringBody f (appendStringLoop n src ++ 0x22 :: tail)
        = some (coerceLoop n src, tail) := by
  induction n with
  | zero =>
    intro src tail f _ hf
    obtain ⟨f, rfl⟩ : ∃ g, f = g + 1 := ⟨f - 1, by omega⟩
    exact parseBody_quote f tail
  | succ n ih =>
    intro src tail f hlen hf
    obtain ⟨f, rfl⟩ : ∃ g, f = g + 1 := ⟨f - 1, by omega⟩
    match src with
    | [] => exact parseBody_quote f tail
    | b :: rest =>
      have hrest : rest.length ≤ n := by simpa using hlen
      rw [coerceLoop_cons]
      by_cases hb : b.val < 0x80
      · have hd := decode_ascii b rest hb
        have hv : ¬ ((DecodeRuneInString (b :: rest)).1 = RuneError
            ∧ (DecodeRuneInString (b :: rest)).2 = 1) := by
          rw [hd]; simp only [RuneError]; omega
        rw [if_neg hv, hd]
        rw [appendStringLoop_cons, if_pos hb] at hf ⊢
        simp only [List.take_succ_cons, List.take_zero, List.drop_succ_cons, List.drop_zero,
          List.cons_append, List.nil_append]
        by_cases hs : htmlSafeSet b.val = true
        · rw [if_pos hs] at hf ⊢
          simp only [List.length_cons] at hf
          rw [List.cons_append, parseBody_safe f b _ hs, ih rest tail f hrest (by omega)]
          rfl
        · rw [if_neg hs] at hf ⊢
          have hl := escapeASCII_length b
          simp only [List.length_append] at hf
          rw [List.append_assoc, parseBody_escape f b _ hb (by simpa using hs),
            ih rest tail f hrest (by omega)]
          rfl
      · by_cases hv : (DecodeRuneInString (b :: rest)).1 = RuneError
            ∧ (DecodeRuneInString (b :: rest)).2 = 1
        · rw [if_pos hv]
          rw [appendStringLoop_cons, if_neg hb, if_pos hv] at hf ⊢
          have hl : (goStr "\\ufffd").length = 6 := rfl
          simp only [List.length_append] at hf
          rw [List.append_assoc, parseBody_replacement,
            ih rest tail f hrest (by omega)]
          rfl
        · rw [if_neg hv]
          rw [appendStringLoop_cons, if_neg hb, if_neg hv] at hf ⊢
          have hpos := decode_size_pos b rest
          have hdrop : ((b :: rest).drop (DecodeRuneInString (b :: rest)).2).length ≤ n := by
            rw [List.length_drop]
            simp only [List.length_cons]
            omega
          by_cases hsep : (DecodeRuneInString (b :: rest)).1 = 0x2028
              ∨ (DecodeRuneInString (b :: rest)).1 = 0x2029
          · rw [if_pos hsep] at hf ⊢
            obtain ⟨h3, s1, s2, t2, rfl, e0, e1, e2⟩ := decode_line_sep b _ hsep
            simp only [List.length_append, List.length_cons, List.length_nil] at hf
            rw [List.append_assoc, parseBody_line_sep f _ hsep,
              ih _ tail f hdrop (by omega), h3]
            simp only [Option.map_some', List.take_succ_cons, List.take_zero]
            have hb0 : b = 0xE2 := Fin.ext e0
            have hb1 : s1 = 0x80 := Fin.ext e1
            have hb2 : (Fin.ofNat ((DecodeRuneInString (b :: s1 :: s2 :: t2)).1 - 0x2028 + 0xA8)
                : Byte) = s2 := by
              have : (DecodeRuneInString (b :: s1 :: s2 :: t2)).1 - 0x2028 + 0xA8 = s2.val := by
                omega
              rw [this, byte_ofNat_val]
            rw [hb2, hb0, hb1]
          · rw [if_neg hsep] at hf ⊢
            have hl : 1 ≤ ((b :: rest).take (DecodeRuneInString (b :: rest)).2).length := by
              rw [List.length_take]
              simp only [List.length_cons]
              omega
            simp only [List.length_append] at hf
            rw [List.append_assoc, parseBody_raw f b rest _ hb hv,
              ih _ tail f hdrop (by omega)]
            rfl


theorem coerceLoop_valid (n : Nat) :
    ∀ s : GoString, s.length ≤ n → validLoop n s = true → coerceLoop n s = s := by
  induction n with
  | zero =>
    intro s hlen _
    have : s = [] := List.eq_nil_of_length_eq_zero (by omega)
    subst this; rfl
  | succ n ih =>
    intro s hlen hv
    match s with
    | [] => rfl
    | b :: rest =>
      have hpos := decode_size_pos b rest
      rw [coerceLoop_cons]
      have hv1 : validLoop (n + 1) (b :: rest)
          = if (DecodeRuneInString (b :: rest)).1 = RuneError
                ∧ (DecodeRuneInString (b :: rest)).2 = 1 then false
            else validLoop n ((b :: rest).drop (DecodeRuneInString (b :: rest)).2) := rfl
      rw [hv1] at hv
      by_cases hi : (DecodeRuneInString (b :: rest)).1 = RuneError
          ∧ (DecodeRuneInString (b :: rest)).2 = 1
      · rw [if_pos hi] at hv; cases hv
      · rw [if_neg hi] at hv ⊢
        rw [ih _ (by rw [List.length_drop]; simp only [List.length_cons] at hlen ⊢; omega) hv]
        exact List.take_append_drop _ _

/-- A valid string is its own coercion. -/
theorem coerceUTF8_valid (s : GoString) (h : ValidString s = true) : coerceUTF8 s = s :=
  coerceLoop_valid s.length s (Nat.le_refl _) h

/-- The string decoder reads back what `appendString` has written, up to the closing
quote: the source coerced to valid UTF-8. -/
theorem parseString_appendString (src tail : GoString) :
    parseString (appendStringLoop src.length src ++ 0x22 :: tail)
      = some (coerceUTF8 src, tail) := by
  unfold parseString coerceUTF8
  exact parseBody_appendStringLoop src.length src tail _ (Nat.le_refl _) (by simp)

theorem appendString_append (src tail : GoString) :
    appendString src ++ tail = 0x22 :: (appendStringLoop src.length src ++ 0x22 :: tail) := by
  simp [appendString]

theorem decodes_mono {f f1 : Nat} {v : GoValue} {j : JSON} (h : Decodes f v j) (hle : f ≤ f1) :
    Decodes f1 v j := fun g hg tail => h g (Nat.le_trans hle hg) tail

theorem decodes_string (s : GoString) : Decodes 1 (.string s) (.string (coerceUTF8 s)) := by
  intro g hg tail
  obtain ⟨g, rfl⟩ : ∃ k, g = k + 1 := ⟨g - 1, by omega⟩
  have hm : marshalValue (.string s) = appendString s := by simp [marshalValue]
  rw [hm, appendString_append]
  have hu : parseValue (g + 1) (0x22 :: (appendStringLoop s.length s ++ 0x22 :: tail))
      = (parseString (appendStringLoop s.length s ++ 0x22 :: tail)).map
          (fun p => (.string p.1, p.2)) := rfl
  rw [hu, parseString_appendString]
  rfl

theorem parseMembers_last (g : Nat) (rest inner tail : List Byte) (k : GoString) (v : JSON)
    (hk : parseString rest = some (k, 0x3A :: inner))
    (hv : parseValue g inner = some (v, 0x7D :: tail)) :
    parseMembers (g + 1) (0x22 :: rest) = some ([(k, v)], tail) := by
  simp [parseMembers, skipWS, hk, hv, Fin.coe_ofNat_eq_mod]

theorem parseMembers_more (g : Nat) (rest inner next tail : List Byte) (k : GoString)
    (v : JSON) (ms : List (GoString × JSON))
    (hk : parseString rest = some (k, 0x3A :: inner))
    (hv : parseValue g inner = some (v, 0x2C :: next))
    (hm : parseMembers g next = some (ms, tail)) :
    parseMembers (g + 1) (0x22 :: rest) = some ((k, v) :: ms, tail) := by
  simp [parseMembers, skipWS, hk, hv, hm, Fin.coe_ofNat_eq_mod]

theorem parseElems_last (g : Nat) (inp tail : List Byte) (v : JSON)
    (hv : parseValue g inp = some (v, 0x5D :: tail)) :
    parseElems (g + 1) inp = some ([v], tail) := by
  simp [parseElems, skipWS, hv, Fin.coe_ofNat_eq_mod]

theorem parseValue_object (g : Nat) (rest tail : List Byte) (ms : List (GoString × JSON))
    (hm : parseMembers g (0x22 :: rest) = some (ms, tail)) :
    parseValue (g + 1) (0x7B :: 0x22 :: rest) = some (.object ms, tail) := by
  simp [parseValue, skipWS, hm, Fin.coe_ofNat_eq_mod]

theorem parseValue_array (g : Nat) (rest tail : List Byte) (xs : List JSON)
    (hm : parseElems g (0x7B :: rest) = some (xs, tail)) :
    parseValue (g + 1) (0x5B :: 0x7B :: rest) = some (.array xs, tail) := by
  simp [parseValue, skipWS, hm, Fin.coe_ofNat_eq_mod]

theorem marshalValue_map1 (k : GoString) (v : GoValue) :
    marshalValue (.map [(k, v)]) = 0x7B :: (appendString k ++ 0x3A :: marshalValue v ++ [0x7D]) := by
  simp [marshalValue, marshalEntries, sortByKey, insertByKey, joinComma]

theorem marshalValue_map2 (k1 k2 : GoString) (v1 v2 : GoValue)
    (hlt : stringLess k2 k1 = false) :
    marshalValue (.map [(k1, v1), (k2, v2)])
      = 0x7B :: (appendString k1 ++ 0x3A :: marshalValue v1
          ++ 0x2C :: (appendString k2 ++ 0x3A :: marshalValue v2) ++ [0x7D]) := by
  simp [marshalValue, marshalEntries, sortByKey, insertByKey, joinComma, hlt]

theorem marshalValue_slice1 (v : GoValue) :
    marshalValue (.slice [v]) = 0x5B :: (marshalValue v ++ [0x5D]) := by
  simp [marshalValue, marshalElems, joinComma]

/-- A map of one entry decodes to an object of one member. -/
theorem decodes_map1 {f : Nat} {v : GoValue} {j : JSON} (k : GoString) (h : Decodes f v j) :
    Decodes (f + 2) (.map [(k, v)]) (.object [(coerceUTF8 k, j)]) := by
  intro g hg tail
  obtain ⟨g, rfl⟩ : ∃ n, g = n + 2 := ⟨g - 2, by omega⟩
  have e : marshalValue (.map [(k, v)]) ++ tail
      = 0x7B :: 0x22 :: (appendStringLoop k.length k
          ++ 0x22 :: 0x3A :: (marshalValue v ++ 0x7D :: tail)) := by
    simp [marshalValue_map1, appendString]
  rw [e]
  exact parseValue_object _ _ _ _
    (parseMembers_last g _ _ _ _ _ (parseString_appendString k _) (h g (by omega) _))

/-- A map of two entries, listed in the order of their keys, decodes to an object of
two members. -/
theorem decodes_map2 {f : Nat} {v1 v2 : GoValue} {j1 j2 : JSON} (k1 k2 : GoString)
    (hlt : stringLess k2 k1 = false) (h1 : Decodes f v1 j1) (h2 : Decodes f v2 j2) :
    Decodes (f + 3) (.map [(k1, v1), (k2, v2)])
      (.object [(coerceUTF8 k1, j1), (coerceUTF8 k2, j2)]) := by
  intro g hg tail
  obtain ⟨g, rfl⟩ : ∃ n, g = n + 3 := ⟨g - 3, by omega⟩
  have e : marshalValue (.map [(k1, v1), (k2, v2)]) ++ tail
      = 0x7B :: 0x22 :: (appendStringLoop k1.length k1
          ++ 0x22 :: 0x3A :: (marshalValue v1 ++ 0x2C :: 0x22 :: (appendStringLoop k2.length k2
          ++ 0x22 :: 0x3A :: (marshalValue v2 ++ 0x7D :: tail)))) := by
    simp [marshalValue_map2 k1 k2 v1 v2 hlt, appendString]
  rw [e]
  exact parseValue_object _ _ _ _
    (parseMembers_more (g + 1) _ _ _ _ _ _ _ (parseString_appendString k1 _)
      (h1 (g + 1) (by omega) _)
      (parseMembers_last g _ _ _ _ _ (parseString_appendString k2 _) (h2 g (by omega) _)))

/-- A slice of one map decodes to an array of one element. -/
theorem decodes_slice1 {f : Nat} {m : List (GoString × GoValue)} {j : JSON}
    (h : Decodes f (.map m) j) : Decodes (f + 2) (.slice [.map m]) (.array [j]) := by
  intro g hg tail
  obtain ⟨g, rfl⟩ : ∃ n, g = n + 2 := ⟨g - 2, by omega⟩
  obtain ⟨body, hb⟩ : ∃ body, marshalValue (.map m) = 0x7B :: body := ⟨_, by
    simp only [marshalValue]; rfl⟩
  have e : marshalValue (.slice [.map m]) ++ tail = 0x5B :: 0x7B :: (body ++ 0x5D :: tail) := by
    simp [marshalValue_slice1, hb]
  have hv := h g (by omega) (0x5D :: tail)
  rw [hb] at hv
  rw [e]
  exact parseValue_array _ _ _ _ (parseElems_last g _ _ _ hv)

/-- The payload of `RegisterRecord` decodes to the fixed shape, with both strings
coerced to valid UTF-8. -/
theorem decodes_payload (databaseId title : GoString) :
    Decodes 14 (payload databaseId title)
      (payloadJSON (coerceUTF8 databaseId) (coerceUTF8 title)) := by
  have hparent := decodes_mono
    (decodes_map1 (goStr "database_id") (decodes_string databaseId)) (by decide : 3 ≤ 11)
  have hprops := decodes_map1 (goStr "Name") (decodes_map1 (goStr "title")
    (decodes_slice1 (decodes_map1 (goStr "text")
      (decodes_map1 (goStr "content") (decodes_string title)))))
  exact decodes_map2 (goStr "parent") (goStr "properties") rfl hparent hprops

theorem marshal_payload_length (databaseId title : GoString) :
    14 ≤ (marshalValue (payload databaseId title)).length := by
  have hlt : stringLess (goStr "properties") (goStr "parent") = false := rfl
  simp only [payload, marshalValue_map2 _ _ _ _ hlt, List.length_cons, List.length_append,
    marshalValue_map1, marshalValue_slice1, appendString]
  simp only [goStr]
  simp
  omega

/-- The request body decodes, as a JSON text, to the fixed shape with both strings
coerced to valid UTF-8. -/
theorem decodeJSON_payload (databaseId title : GoString) :
    decodeJSON (marshalValue (payload databaseId title))
      = some (payloadJSON (coerceUTF8 databaseId) (coerceUTF8 title)) := by
  have h := decodes_payload databaseId title _
    (Nat.le_succ_of_le (marshal_payload_length databaseId title)) []
  rw [List.append_nil] at h
  unfold decodeJSON
  rw [h]
  rfl


/-! ## Claims on the request body -/

theorem appendStringLoop_fuel (n : Nat) :
    ∀ (m : Nat) (src : GoString), src.length ≤ n → src.length ≤ m →
      appendStringLoop n src = appendStringLoop m src := by
  induction n with
  | zero =>
    intro m src h _
    have : src = [] := List.eq_nil_of_length_eq_zero (by omega)
    subst this
    cases m <;> rfl
  | succ n ih =>
    intro m src hn hm
    match src, m with
    | [], 0 => rfl
    | [], _ + 1 => rfl
    | b :: rest, 0 => simp at hm
    | b :: rest, m + 1 =>
      have hpos := decode_size_pos b rest
      have hrn : rest.length ≤ n := by simpa using hn
      have hrm : rest.length ≤ m := by simpa using hm
      have hdn : ((b :: rest).drop (DecodeRuneInString (b :: rest)).2).length ≤ n := by
        rw [List.length_drop]; simp only [List.length_cons]; omega
      have hdm : ((b :: rest).drop (DecodeRuneInString (b :: rest)).2).length ≤ m := by
        rw [List.length_drop]; simp only [List.length_cons]; omega
      rw [appendStringLoop_cons, appendStringLoop_cons, ih m rest hrn hrm, ih m _ hdn hdm]

/-- The fuel of `appendString` is enough: more fuel gives the same encoding. -/
theorem appendString_fuel (src : GoString) (n : Nat) (h : src.length ≤ n) :
    0x22 :: (appendStringLoop n src ++ [0x22]) = appendString src := by
  unfold appendString
  rw [appendStringLoop_fuel n src.length src h (Nat.le_refl _)]

theorem contentOf_payloadJSON (databaseId title : GoString) :
    contentOf (payloadJSON databaseId title) = some title := rfl

theorem databaseIdOf_payloadJSON (databaseId title : GoString) :
    databaseIdOf (payloadJSON databaseId title) = some databaseId := rfl

/-- C3, amended: for every title that is valid UTF-8 (empty or not, whatever quotes,
backslashes, control characters, `<`, `>`, `&` or non-ASCII characters it holds) and
every database identifier, the body of the request `RegisterRecord` sends is a JSON
text, and the string at `properties.Name.title[0].text.content` of the value it
decodes to is the title, byte for byte. -/
theorem request_body_title (c : NotionClient) (databaseId title : GoString)
    (hvalid : ValidString title = true) :
    ∃ req json, (c.RegisterRecord databaseId title).sent = [req]
      ∧ decodeJSON req.Body = some json ∧ contentOf json = some title := by
  refine ⟨wireRequest c.token databaseId title, _, RegisterRecord_sent c databaseId title,
    decodeJSON_payload databaseId title, ?_⟩
  rw [contentOf_payloadJSON, coerceUTF8_valid title hvalid]

/-- C3 amended, for a title with characters of every kind the claim names. -/
theorem request_body_title_witness :
    ValidString sampleTitle = true
      ∧ ∃ req json,
        ((NewNotionClient (answering 200 []) (goStr "tok456")).RegisterRecord
          (goStr "db123") sampleTitle).sent = [req]
        ∧ decodeJSON req.Body = some json ∧ contentOf json = some sampleTitle :=
  ⟨by decide, request_body_title (NewNotionClient (answering 200 []) (goStr "tok456"))
    (goStr "db123") sampleTitle (by decide)⟩

/-- C3 as stated fails: for the title of the single byte FF, which is no valid UTF-8,
the content of the body decodes to U+FFFD (EF BF BD), not to the title. -/
theorem request_body_title_counterexample :
    ((NewNotionClient (answering 200 []) (goStr "tok456")).RegisterRecord
        (goStr "db123") [0xFF]).sent.map (fun req => (decodeJSON req.Body).bind contentOf)
      = [some [0xEF, 0xBF, 0xBD]]
    ∧ ([0xEF, 0xBF, 0xBD] : GoString) ≠ [0xFF] :=
  ⟨by rfl, by decide⟩

/-- C4, amended: for every database identifier and title, the body of the request
`RegisterRecord` sends decodes to exactly the fixed shape, an object with the members
`parent`, an object whose one member is `database_id`, and `properties`, an object
whose one member `Name` is an object whose one member `title` is an array of one
element, an object whose one member `text` is an object whose one member is `content`;
the two strings are the database identifier and the title coerced to valid UTF-8.
`parent.database_id` is the database identifier unchanged whenever that is valid UTF-8,
whatever the title, and `content` is the title whenever that is valid UTF-8. -/
theorem request_body_shape (c : NotionClient) (databaseId title : GoString) :
    ∃ req, (c.RegisterRecord databaseId title).sent = [req]
      ∧ decodeJSON req.Body
          = some (payloadJSON (coerceUTF8 databaseId) (coerceUTF8 title))
      ∧ (ValidString databaseId = true →
          (decodeJSON req.Body).bind databaseIdOf = some databaseId)
      ∧ (ValidString title = true →
          (decodeJSON req.Body).bind contentOf = some title)
      ∧ (ValidString databaseId = true → ValidString title = true →
          decodeJSON req.Body = some (payloadJSON databaseId title)) := by
  have h : decodeJSON (wireRequest c.token databaseId title).Body
      = some (payloadJSON (coerceUTF8 databaseId) (coerceUTF8 title)) :=
    decodeJSON_payload databaseId title
  refine ⟨wireRequest c.token databaseId title, RegisterRecord_sent c databaseId title, h,
    ?_, ?_, ?_⟩
  · intro hid
    rw [h, coerceUTF8_valid databaseId hid]
    rfl
  · intro htitle
    rw [h, coerceUTF8_valid title htitle]
    rfl
  · intro hid htitle
    rw [h, coerceUTF8_valid databaseId hid, coerceUTF8_valid title htitle]

/-- C4 amended, for the database identifier `db123`: with the title `Buy milk`, and
with the title of the single byte FF, which leaves `database_id` as it is. -/
theorem request_body_shape_witness :
    (ValidString (goStr "db123") = true ∧ ValidString (goStr "Buy milk") = true
      ∧ ∃ req,
        ((NewNotionClient (answering 200 []) (goStr "tok456")).RegisterRecord
          (goStr "db123") (goStr "Buy milk")).sent = [req]
        ∧ decodeJSON req.Body = some (payloadJSON (goStr "db123") (goStr "Buy milk")))
    ∧ (ValidString ([0xFF] : GoString) = false
      ∧ ∃ req,
        ((NewNotionClient (answering 200 []) (goStr "tok456")).RegisterRecord
          (goStr "db123") [0xFF]).sent = [req]
        ∧ decodeJSON req.Body = some (payloadJSON (goStr "db123") [0xEF, 0xBF, 0xBD])
        ∧ (decodeJSON req.Body).bind databaseIdOf = some (goStr "db123")) := by
  constructor
  · obtain ⟨req, hs, _, _, _, h⟩ :=
      request_body_shape (NewNotionClient (answering 200 []) (goStr "tok456"))
        (goStr "db123") (goStr "Buy milk")
    exact ⟨by decide, by decide, req, hs, h (by decide) (by decide)⟩
  · obtain ⟨req, hs, h, hid, _, _⟩ :=
      request_body_shape (NewNotionClient (answering 200 []) (goStr "tok456"))
        (goStr "db123") [0xFF]
    exact ⟨by decide, req, hs, h, hid (by decide)⟩

/-- C4 as stated fails: for the database identifier of the single byte FF, which is no
valid UTF-8, `parent.database_id` of the body decodes to U+FFFD (EF BF BD), not to the
identifier; and for the title of the single byte FF, `content` decodes to U+FFFD, not
to the title. -/
theorem request_body_shape_counterexample :
    (((NewNotionClient (answering 200 []) (goStr "tok456")).RegisterRecord
        [0xFF] (goStr "Buy milk")).sent.map
          (fun req => (decodeJSON req.Body).bind databaseIdOf)
      = [some [0xEF, 0xBF, 0xBD]]
      ∧ ((NewNotionClient (answering 200 []) (goStr "tok456")).RegisterRecord
        (goStr "db123") [0xFF]).sent.map
          (fun req => (decodeJSON req.Body).bind contentOf)
      = [some [0xEF, 0xBF, 0xBD]])
    ∧ ([0xEF, 0xBF, 0xBD] : GoString) ≠ [0xFF] :=
  ⟨⟨by rfl, by rfl⟩, by decide⟩

end AlfredNotion
